import Mathlib

/-!
gofor: classification of Go `for` statements.

A shallow embedding of `visitor.Visit` from `gofor.go`, the function that
inspects one syntax node and prints a one-line classification of every
`for` / `range` statement it is handed.

Modelling conventions.

* `go/token` and `go/ast` are libraries, not part of `gofor.go`.  Only the
  node kinds and fields that `Visit` inspects are modelled in detail; the
  remaining kinds are kept as further alternatives so that every type
  assertion of the source has inputs on which it fails.
* An interface value that may be `nil` (`ast.Node`, `stmt.Init`, `stmt.Cond`,
  `stmt.Post`, the returned `ast.Visitor`) is an `Option`.
* `fmt.Println` / `fmt.Printf` write to standard output.  The output of one
  call of `Visit` is returned as the list of lines written, each line without
  its terminating newline.
* Indexing a slice out of range panics in Go.  `Visit` returns `none` for a
  run that panics, and `some r` for a run that returns normally.
* `ast.Walk`, which `main` calls on each parsed file, is library code.  It is
  modelled as `Walk` over the syntax tree: a file, its declarations, their
  statements and expressions, function literals included.
-/

namespace Gofor

/-- Tokens of `go/token` that can occur in the nodes `Visit` inspects.  `OTHER`
stands for every token not listed. -/
inductive Token
  | INT | FLOAT | IMAG | CHAR | STRING
  | ADD | SUB | MUL | QUO | REM
  | ADD_ASSIGN | SUB_ASSIGN | MUL_ASSIGN | QUO_ASSIGN | REM_ASSIGN
  | LAND | LOR | INC | DEC
  | EQL | LSS | GTR | ASSIGN | NOT | NEQ | LEQ | GEQ | DEFINE
  | OTHER (code : Nat)
  deriving DecidableEq, Repr

mutual

/-- Expressions of `go/ast`.  `Visit` distinguishes `*ast.Ident`,
`*ast.BasicLit` and `*ast.BinaryExpr`; the other constructors are expression
kinds on which those three type assertions fail.  A function literal
`*ast.FuncLit` holds its type and the statements of its body.  `Other` stands
for every expression kind not listed (composite literal, slice expression,
type assertion, star expression, key-value pair, a type expression, ...): it
keeps the name of the kind and the non-nil child nodes in the order `ast.Walk`
visits them. -/
inductive Expr
  | Ident (Name : String)
  | BasicLit (Kind : Token) (Value : String)
  | BinaryExpr (X : Expr) (Op : Token) (Y : Expr)
  | UnaryExpr (Op : Token) (X : Expr)
  | ParenExpr (X : Expr)
  | SelectorExpr (X : Expr) (Sel : String)
  | IndexExpr (X : Expr) (Index : Expr)
  | CallExpr (Fun : Expr) (Args : List Expr)
  | BadExpr
  | FuncLit (Typ : Expr) (Body : List Stmt)
  | Other (kind : String) (children : List Node)

/-- Statements of `go/ast`.  `Visit` distinguishes `*ast.RangeStmt`,
`*ast.ForStmt`, `*ast.AssignStmt` and `*ast.IncDecStmt`; the other
constructors are statement kinds on which those type assertions fail.  A
`*ast.BlockStmt` body is represented by its statement list.  `Other` stands
for every statement kind not listed (switch, type switch, select, case
clause, labeled, go, defer, return, branch, declaration statement, ...): it
keeps the name of the kind and the non-nil child nodes in the order `ast.Walk`
visits them. -/
inductive Stmt
  | AssignStmt (Lhs : List Expr) (Tok : Token) (Rhs : List Expr)
  | IncDecStmt (X : Expr) (Tok : Token)
  | ExprStmt (X : Expr)
  | SendStmt (Chan : Expr) (Value : Expr)
  | ForStmt (Init : Option Stmt) (Cond : Option Expr) (Post : Option Stmt)
      (Body : List Stmt)
  | RangeStmt (Key : Option Expr) (Value : Option Expr) (Tok : Token) (X : Expr)
      (Body : List Stmt)
  | BlockStmt (List : List Stmt)
  | EmptyStmt
  | BadStmt
  | IfStmt (Init : Option Stmt) (Cond : Expr) (Body : List Stmt) (Else : Option Stmt)
  | Other (kind : String) (children : List Node)

/-- Values of the interface `ast.Node` other than `nil`: an expression, a
statement, or a node of another kind.  `Other` is a node without children
(a comment, ...), of which only the kind's name is kept.  `File` is an
`*ast.File` and `FuncDecl` an `*ast.FuncDecl`, with the fields `ast.Walk`
visits; the body of a function declaration is a block statement, nil for a
declaration without body.  `Inner` stands for every other kind of node
(general declaration, import, value and type specification, field, field
list, comment group, package): it keeps the name of the kind and the
non-nil child nodes in the order `ast.Walk` visits them. -/
inductive Node
  | Expr (e : Expr)
  | Stmt (s : Stmt)
  | Other (kind : String)
  | File (Doc : Option Node) (Name : Expr) (Decls : List Node)
  | FuncDecl (Doc : Option Node) (Recv : Option Node) (Name : Expr) (Typ : Expr)
      (Body : Option Stmt)
  | Inner (kind : String) (children : List Node)

end

/-- The receiver type `visitor` (`type visitor struct{}`). -/
structure visitor where
  deriving DecidableEq, Repr

/-- What one call of `Visit` does: the lines it writes to standard output and
the `ast.Visitor` it returns (`none` for a nil visitor). -/
structure VisitResult where
  out : List String
  w : Option visitor
  deriving DecidableEq, Repr

/-- `fmt.Println(s); return v`. -/
def Println (v : visitor) (s : String) : Option VisitResult :=
  some ⟨[s], some v⟩

/-- The line written by
`fmt.Printf("counting loop min %s, max %s, stride %s\n", min, max, stride)`. -/
def countingLine (min max stride : String) : String :=
  "counting loop min " ++ min ++ ", max " ++ max ++ ", stride " ++ stride

/-- Lines 149-158: the value of the local variable `min`, computed from
`initAssign.Rhs[0]`. -/
def Visit.min (initRhs0 : Expr) : String :=
  match initRhs0 with
  | Expr.BasicLit _ Value => if Value = "0" then "0" else "literal"
  | _ => "non-literal"

/-- Lines 160-165: the value of the local variable `max`, computed from
`binExpr.Y`. -/
def Visit.max (Y : Expr) : String :=
  match Y with
  | Expr.BasicLit _ _ => "literal"
  | _ => "non-literal"

/-- Lines 167-185: the value of the local variable `stride`, computed from
`stmt.Post`.  `postAssign.Rhs[0]` is read whenever the post statement is an
assignment; `none` is the index-out-of-range panic.  When the post statement
is neither an inc/dec nor an assignment, `postAssignRhsLitOk` keeps its zero
value `false` and the `switch` takes `case !postAssignRhsLitOk`. -/
def Visit.stride (Post : Stmt) : Option String :=
  match Post with
  | Stmt.IncDecStmt _ Tok =>
    if Tok = Token.INC then some "1" else some "literal"
  | Stmt.AssignStmt _ Tok Rhs =>
    match Rhs[0]? with
    | none => none
    | some (Expr.BasicLit _ Value) =>
      if Value = "1" ∧ Tok = Token.ADD_ASSIGN then some "1" else some "literal"
    | some _ => some "non-literal"
  | _ => some "non-literal"

/-- Lines 149-188: the code after the rejection chain.  It computes `min`,
`max` and `stride` and prints the counting-loop line. -/
def Visit.report (v : visitor) (initRhs : List Expr) (Y : Expr) (Post : Stmt) :
    Option VisitResult :=
  match initRhs[0]? with
  | none => none
  | some initRhs0 =>
    match Visit.stride Post with
    | none => none
    | some stride =>
      Println v (countingLine (Visit.min initRhs0) (Visit.max Y) stride)

/-- Lines 102-139: the checks on `stmt.Post`, given the name of the
initializer's identifier.  The result is `none` for the index-out-of-range
panic, `some (some label)` when a check rejects the loop with `label`, and
`some none` when all checks pass. -/
def Visit.checkPost (initLhsName : String) (Post : Stmt) : Option (Option String) :=
  match Post with
  | Stmt.AssignStmt Lhs Tok Rhs =>
    if Lhs.length ≠ 1 ∨ Rhs.length ≠ 1 then
      some (some "post assign multiple values")
    else
      match Lhs[0]? with
      | none => none
      | some (Expr.Ident Name) =>
        if Name ≠ initLhsName then
          some (some "init lhs != post assign lhs")
        else if Tok ≠ Token.ADD_ASSIGN ∧ Tok ≠ Token.SUB_ASSIGN then
          some (some "post assign not += or -= (but might be i = i - 1, oh well)")
        else
          some none
      | some _ => some (some "post assign lhs not ident")
  | Stmt.IncDecStmt X _ =>
    match X with
    | Expr.Ident Name =>
      if Name ≠ initLhsName then
        some (some "init lhs != post incdec lhs")
      else
        some none
    | _ => some (some "post incdec lhs not ident")
  | _ => some (some "post not assign or inc/dec")

/-- Lines 77-188: the part of `Visit` that runs once the condition is known to
be `condLhsName <[=] Y`, with `stmt.Init` and `stmt.Post` both non-nil. -/
def Visit.checkInit (v : visitor) (Init : Stmt) (condLhsName : String) (Y : Expr)
    (Post : Stmt) : Option VisitResult :=
  match Init with
  | Stmt.AssignStmt Lhs _ Rhs =>
    if Lhs.length ≠ 1 ∨ Rhs.length ≠ 1 then
      Println v "init multiple values"
    else
      match Lhs[0]? with
      | none => none
      | some (Expr.Ident Name) =>
        if Name ≠ condLhsName then
          Println v "init lhs != cond lhs"
        else
          match Visit.checkPost Name Post with
          | none => none
          | some (some label) => Println v label
          | some none => Visit.report v Rhs Y Post
      | some _ => Println v "init lhs not identifier"
  | _ => Println v "init not i := n"

/-- Lines 41-188: the part of `Visit` that runs on a `*ast.ForStmt` with
fields `Init`, `Cond` and `Post`. -/
def Visit.forStmt (v : visitor) (Init : Option Stmt) (Cond : Option Expr)
    (Post : Option Stmt) : Option VisitResult :=
  if Init.isNone && Cond.isNone && Post.isNone then
    Println v "bare for"
  else if Init.isNone && Post.isNone then
    Println v "cond only"
  else
    match Init with
    | none => Println v "missing init"
    | some Init =>
      match Post with
      | none => Println v "missing post"
      | some Post =>
        match Cond with
        | some (Expr.BinaryExpr X Op Y) =>
          if Op ≠ Token.LSS ∧ Op ≠ Token.LEQ then
            Println v "cond not < or <="
          else
            match X with
            | Expr.Ident Name => Visit.checkInit v Init Name Y Post
            | _ => Println v "cond lhs not identifier"
        | _ => Println v "cond not < or <="

/-- The method `func (v visitor) Visit(node ast.Node) (w ast.Visitor)`. -/
def Visit (v : visitor) (node : Option Node) : Option VisitResult :=
  match node with
  | none => some ⟨[], some v⟩
  | some (Node.Stmt (Stmt.RangeStmt _ _ _ _ _)) => Println v "range"
  | some (Node.Stmt (Stmt.ForStmt Init Cond Post _)) => Visit.forStmt v Init Cond Post
  | some _ => some ⟨[], some v⟩


/-- The phrases `Visit` prints with `fmt.Println`, in source order: the
rejection labels. -/
def rejectionLabels : List String :=
  ["range", "bare for", "cond only", "missing init", "missing post",
   "cond not < or <=", "cond lhs not identifier", "init not i := n",
   "init multiple values", "init lhs not identifier", "init lhs != cond lhs",
   "post not assign or inc/dec", "post assign multiple values",
   "post assign lhs not ident", "init lhs != post assign lhs",
   "post assign not += or -= (but might be i = i - 1, oh well)",
   "post incdec lhs not ident", "init lhs != post incdec lhs"]

/-- The values the local variable `min` is assigned in lines 149-158. -/
def minKinds : List String := ["0", "literal", "non-literal"]

/-- The values the local variable `max` is assigned in lines 160-165. -/
def maxKinds : List String := ["literal", "non-literal"]

/-- The values the local variable `stride` is assigned in lines 167-185. -/
def strideKinds : List String := ["1", "literal", "non-literal"]

/-- The post-step shape of a counting loop on the variable `x`, in the words of
the specification: an increment/decrement statement whose operand is the
identifier `x`, or an assignment with exactly one target and one value,
operator `+=` or `-=`, whose target is the identifier `x`. -/
def IsCountingPost (x : String) (Post : Stmt) : Prop :=
  (∃ tok, Post = Stmt.IncDecStmt (Expr.Ident x) tok) ∨
  (∃ tok r, Post = Stmt.AssignStmt [Expr.Ident x] tok [r] ∧
    (tok = Token.ADD_ASSIGN ∨ tok = Token.SUB_ASSIGN))

/-- The counting-loop shape in the words of the specification: the
initializer is an assignment with exactly one target and one value whose
target is an identifier `x`; the condition is a binary comparison with
operator `<` or `<=` whose left operand is an identifier named `x`; and the
post-step has the shape `IsCountingPost x`. -/
def IsCountingShape (Init : Option Stmt) (Cond : Option Expr) (Post : Option Stmt) :
    Prop :=
  ∃ x tok r op Y post,
    Init = some (Stmt.AssignStmt [Expr.Ident x] tok [r]) ∧
    Cond = some (Expr.BinaryExpr (Expr.Ident x) op Y) ∧
    (op = Token.LSS ∨ op = Token.LEQ) ∧
    Post = some post ∧ IsCountingPost x post

/-- Whether a node is a for-statement or a range-statement
(`*ast.ForStmt` or `*ast.RangeStmt`); `nil` is neither. -/
def isLoopNode (node : Option Node) : Bool :=
  match node with
  | some (Node.Stmt (Stmt.ForStmt _ _ _ _)) => true
  | some (Node.Stmt (Stmt.RangeStmt _ _ _ _ _)) => true
  | _ => false

/-- The statement `for Init; Cond; Post { }` as a node. -/
def forNode (Init : Option Stmt) (Cond : Option Expr) (Post : Option Stmt) : Option Node :=
  some (Node.Stmt (Stmt.ForStmt Init Cond Post []))

/-- The node of `for i := 0; i < 10; i++ { }`. -/
def exCanonical : Option Node :=
  forNode (some (Stmt.AssignStmt [Expr.Ident "i"] Token.DEFINE [Expr.BasicLit Token.INT "0"]))
    (some (Expr.BinaryExpr (Expr.Ident "i") Token.LSS (Expr.BasicLit Token.INT "10")))
    (some (Stmt.IncDecStmt (Expr.Ident "i") Token.INC))

/-- The node of `for i := n; i < m; i += 2 { }`. -/
def exStrideTwo : Option Node :=
  forNode (some (Stmt.AssignStmt [Expr.Ident "i"] Token.DEFINE [Expr.Ident "n"]))
    (some (Expr.BinaryExpr (Expr.Ident "i") Token.LSS (Expr.Ident "m")))
    (some (Stmt.AssignStmt [Expr.Ident "i"] Token.ADD_ASSIGN [Expr.BasicLit Token.INT "2"]))

/-- The node of `for i := 5; i <= bound; i-- { }`. -/
def exDecrement : Option Node :=
  forNode (some (Stmt.AssignStmt [Expr.Ident "i"] Token.DEFINE [Expr.BasicLit Token.INT "5"]))
    (some (Expr.BinaryExpr (Expr.Ident "i") Token.LEQ (Expr.Ident "bound")))
    (some (Stmt.IncDecStmt (Expr.Ident "i") Token.DEC))

/-- The node of `for x != y { }`. -/
def exCondOnlyNeq : Option Node :=
  forNode none (some (Expr.BinaryExpr (Expr.Ident "x") Token.NEQ (Expr.Ident "y"))) none

/-- The node of `for i := 0; i < 10; j++ { }`. -/
def exPostIncOther : Option Node :=
  forNode (some (Stmt.AssignStmt [Expr.Ident "i"] Token.DEFINE [Expr.BasicLit Token.INT "0"]))
    (some (Expr.BinaryExpr (Expr.Ident "i") Token.LSS (Expr.BasicLit Token.INT "10")))
    (some (Stmt.IncDecStmt (Expr.Ident "j") Token.INC))

/-- The node of `for i := 0; i < 10; j += 1 { }`. -/
def exPostAssignOther : Option Node :=
  forNode (some (Stmt.AssignStmt [Expr.Ident "i"] Token.DEFINE [Expr.BasicLit Token.INT "0"]))
    (some (Expr.BinaryExpr (Expr.Ident "i") Token.LSS (Expr.BasicLit Token.INT "10")))
    (some (Stmt.AssignStmt [Expr.Ident "j"] Token.ADD_ASSIGN [Expr.BasicLit Token.INT "1"]))

/-- The node of `for f(); i < 10; i++ { }`, whose initializer is an expression
statement. -/
def exInitNotAssign : Option Node :=
  forNode (some (Stmt.ExprStmt (Expr.CallExpr (Expr.Ident "f") [])))
    (some (Expr.BinaryExpr (Expr.Ident "i") Token.LSS (Expr.BasicLit Token.INT "10")))
    (some (Stmt.IncDecStmt (Expr.Ident "i") Token.INC))

/-- The node of `for i, j := 0, 1; i < 10; i++ { }`, whose initializer assigns
two values to two targets. -/
def exInitMulti : Option Node :=
  forNode
    (some (Stmt.AssignStmt [Expr.Ident "i", Expr.Ident "j"] Token.DEFINE
      [Expr.BasicLit Token.INT "0", Expr.BasicLit Token.INT "1"]))
    (some (Expr.BinaryExpr (Expr.Ident "i") Token.LSS (Expr.BasicLit Token.INT "10")))
    (some (Stmt.IncDecStmt (Expr.Ident "i") Token.INC))

/-- The phrases printed by the checks on the condition (lines 63-75). -/
def condLabels : List String :=
  ["cond not < or <=", "cond lhs not identifier"]

/-- The phrases printed by the checks on the initializer (lines 77-100). -/
def initLabels : List String :=
  ["init not i := n", "init multiple values", "init lhs not identifier",
   "init lhs != cond lhs"]

/-- The phrases printed by the checks on the post-step (lines 102-139). -/
def postLabels : List String :=
  ["post not assign or inc/dec", "post assign multiple values",
   "post assign lhs not ident", "init lhs != post assign lhs",
   "post assign not += or -= (but might be i = i - 1, oh well)",
   "post incdec lhs not ident", "init lhs != post incdec lhs"]

/-- The phrases printed before the condition is inspected, for a
for-statement with a part absent (lines 41-61). -/
def absentLabels : List String :=
  ["bare for", "cond only", "missing init", "missing post"]

/-- The node of `for i := 0; i < n; j = j + 1 { }`. -/
def exPostPlainAssignOther : Option Node :=
  forNode (some (Stmt.AssignStmt [Expr.Ident "i"] Token.DEFINE [Expr.BasicLit Token.INT "0"]))
    (some (Expr.BinaryExpr (Expr.Ident "i") Token.LSS (Expr.Ident "n")))
    (some (Stmt.AssignStmt [Expr.Ident "j"] Token.ASSIGN
      [Expr.BinaryExpr (Expr.Ident "j") Token.ADD (Expr.BasicLit Token.INT "1")]))

/-- The three forms named in the comment of lines 141-144, in the words of
the specification: the initializer is a `:=` short variable declaration of a
single identifier `i`, the condition compares `i` with `<` or `<=`, and the
post-step is `i += ?`, `i++` or `i--` on that same identifier. -/
def IsThreeForms (Init : Option Stmt) (Cond : Option Expr) (Post : Option Stmt) : Prop :=
  ∃ i r op Y,
    Init = some (Stmt.AssignStmt [Expr.Ident i] Token.DEFINE [r]) ∧
    Cond = some (Expr.BinaryExpr (Expr.Ident i) op Y) ∧
    (op = Token.LSS ∨ op = Token.LEQ) ∧
    ((∃ r2, Post = some (Stmt.AssignStmt [Expr.Ident i] Token.ADD_ASSIGN [r2])) ∨
      Post = some (Stmt.IncDecStmt (Expr.Ident i) Token.INC) ∨
      Post = some (Stmt.IncDecStmt (Expr.Ident i) Token.DEC))

/-- The node of `for i := 0; i < n; i -= 1 { }`. -/
def exSubAssign : Option Node :=
  forNode (some (Stmt.AssignStmt [Expr.Ident "i"] Token.DEFINE [Expr.BasicLit Token.INT "0"]))
    (some (Expr.BinaryExpr (Expr.Ident "i") Token.LSS (Expr.Ident "n")))
    (some (Stmt.AssignStmt [Expr.Ident "i"] Token.SUB_ASSIGN [Expr.BasicLit Token.INT "1"]))

/-- The fields behind a non-nil `*ast.AssignStmt`. -/
structure AssignFields where
  Lhs : List Expr
  Tok : Token
  Rhs : List Expr

/-- The fields behind a non-nil `*ast.IncDecStmt`. -/
structure IncDecFields where
  X : Expr
  Tok : Token

/-- The fields behind a non-nil `*ast.BasicLit`. -/
structure BasicLitFields where
  Kind : Token
  Value : String

/-- The pointer given by the type assertion `stmt.Post.(*ast.AssignStmt)`:
`none` is the nil pointer, and the assertion's `ok` is `isSome`. -/
def asAssignStmt (s : Stmt) : Option AssignFields :=
  match s with
  | Stmt.AssignStmt Lhs Tok Rhs => some ⟨Lhs, Tok, Rhs⟩
  | _ => none

/-- The pointer given by the type assertion `stmt.Post.(*ast.IncDecStmt)`. -/
def asIncDecStmt (s : Stmt) : Option IncDecFields :=
  match s with
  | Stmt.IncDecStmt X Tok => some ⟨X, Tok⟩
  | _ => none

/-- The pointer given by the type assertion `e.(*ast.BasicLit)`. -/
def asBasicLit (e : Expr) : Option BasicLitFields :=
  match e with
  | Expr.BasicLit Kind Value => some ⟨Kind, Value⟩
  | _ => none

/-- Lines 167-185 once more, with the pointers `postAssign`, `postIncDec` and
`postAssignRhsLit` explicit.  Reading a field through a nil pointer fails
(`none`), as does `Rhs[0]` on an empty list; `a && b` reads `b` only when `a`
holds, and the cases of the `switch` are tried in order. -/
def Visit.strideSwitch (Post : Stmt) : Option String :=
  let postAssign := asAssignStmt Post
  let postAssignOk := postAssign.isSome
  let postIncDec := asIncDecStmt Post
  let postIncDecOk := postIncDec.isSome
  let assigned : Option (Option BasicLitFields) :=
    if postAssignOk then
      postAssign.bind (fun pa => (pa.Rhs[0]?).map asBasicLit)
    else some none
  match assigned with
  | none => none
  | some postAssignRhsLit =>
    let postAssignRhsLitOk := postAssignRhsLit.isSome
    let case1 : Option Bool :=
      if postIncDecOk then postIncDec.map (fun p => decide (p.Tok = Token.INC))
      else some false
    match case1 with
    | none => none
    | some true => some "1"
    | some false =>
      if postIncDecOk then some "literal"
      else if !postAssignRhsLitOk then some "non-literal"
      else
        let case4 : Option Bool :=
          postAssignRhsLit.bind (fun lit =>
            if lit.Value = "1" then
              postAssign.map (fun pa => decide (pa.Tok = Token.ADD_ASSIGN))
            else some false)
        match case4 with
        | none => none
        | some true => some "1"
        | some false => some "literal"

/-- Modelled from the spec: `ast.Walk` of the Go library `go/ast`, which `main`
calls as `ast.Walk(v, f)` and which is not part of `gofor.go`.  This is the
step `Walk` performs at one node: it calls `v.Visit(node)`; if the visitor
returned is nil the node's children are skipped; otherwise the children are
walked with the visitor returned (`kids`), followed by a call of
`Visit(nil)` on it.  The result is the list of lines written, `none` when a
call of `Visit` fails. -/
def walkNode (v : visitor) (node : Node) (kids : visitor → Option (List String)) :
    Option (List String) :=
  match Visit v (some node) with
  | none => none
  | some r =>
    match r.w with
    | none => some r.out
    | some w =>
      match kids w with
      | none => none
      | some ks =>
        match Visit w none with
        | none => none
        | some fin => some (r.out ++ ks ++ fin.out)

/-- The output of two walks made one after the other. -/
def walkSeq (a b : Option (List String)) : Option (List String) :=
  match a, b with
  | some x, some y => some (x ++ y)
  | _, _ => none

mutual

/-- Modelled from the spec: `ast.Walk` on an expression node; the children
are walked in the order of the fields, the body of a function literal as a
block statement. -/
def WalkExpr (v : visitor) : Expr → Option (List String)
  | Expr.Ident Name => walkNode v (Node.Expr (Expr.Ident Name)) (fun _ => some [])
  | Expr.BasicLit Kind Value =>
    walkNode v (Node.Expr (Expr.BasicLit Kind Value)) (fun _ => some [])
  | Expr.BinaryExpr X Op Y =>
    walkNode v (Node.Expr (Expr.BinaryExpr X Op Y))
      (fun w => walkSeq (WalkExpr w X) (WalkExpr w Y))
  | Expr.UnaryExpr Op X =>
    walkNode v (Node.Expr (Expr.UnaryExpr Op X)) (fun w => WalkExpr w X)
  | Expr.ParenExpr X =>
    walkNode v (Node.Expr (Expr.ParenExpr X)) (fun w => WalkExpr w X)
  | Expr.SelectorExpr X Sel =>
    walkNode v (Node.Expr (Expr.SelectorExpr X Sel))
      (fun w => walkSeq (WalkExpr w X)
        (walkNode w (Node.Expr (Expr.Ident Sel)) (fun _ => some [])))
  | Expr.IndexExpr X Index =>
    walkNode v (Node.Expr (Expr.IndexExpr X Index))
      (fun w => walkSeq (WalkExpr w X) (WalkExpr w Index))
  | Expr.CallExpr Fun Args =>
    walkNode v (Node.Expr (Expr.CallExpr Fun Args))
      (fun w => walkSeq (WalkExpr w Fun) (WalkExprList w Args))
  | Expr.BadExpr => walkNode v (Node.Expr Expr.BadExpr) (fun _ => some [])
  | Expr.FuncLit Typ Body =>
    walkNode v (Node.Expr (Expr.FuncLit Typ Body))
      (fun w => walkSeq (WalkExpr w Typ)
        (walkNode w (Node.Stmt (Stmt.BlockStmt Body)) (fun u => WalkStmtList u Body)))
  | Expr.Other kind children =>
    walkNode v (Node.Expr (Expr.Other kind children)) (fun w => WalkList w children)

/-- Modelled from the spec: `ast.Walk` on each expression of a list, in
order. -/
def WalkExprList (v : visitor) : List Expr → Option (List String)
  | [] => some []
  | e :: es => walkSeq (WalkExpr v e) (WalkExprList v es)

/-- Modelled from the spec: `ast.Walk` on an expression field that may be
nil; a nil field is not walked. -/
def WalkOptExpr (v : visitor) : Option Expr → Option (List String)
  | none => some []
  | some e => WalkExpr v e

/-- Modelled from the spec: `ast.Walk` on a statement node.  A for-statement
has the children `Init`, `Cond`, `Post` (each when non-nil) and `Body`; a
range-statement has `Key`, `Value` (each when non-nil), `X` and `Body`; an
if-statement has `Init` (when non-nil), `Cond`, `Body` and `Else` (when
non-nil); a body is a block-statement node whose children are its
statements. -/
def WalkStmt (v : visitor) : Stmt → Option (List String)
  | Stmt.AssignStmt Lhs Tok Rhs =>
    walkNode v (Node.Stmt (Stmt.AssignStmt Lhs Tok Rhs))
      (fun w => walkSeq (WalkExprList w Lhs) (WalkExprList w Rhs))
  | Stmt.IncDecStmt X Tok =>
    walkNode v (Node.Stmt (Stmt.IncDecStmt X Tok)) (fun w => WalkExpr w X)
  | Stmt.ExprStmt X =>
    walkNode v (Node.Stmt (Stmt.ExprStmt X)) (fun w => WalkExpr w X)
  | Stmt.SendStmt Chan Value =>
    walkNode v (Node.Stmt (Stmt.SendStmt Chan Value))
      (fun w => walkSeq (WalkExpr w Chan) (WalkExpr w Value))
  | Stmt.ForStmt Init Cond Post Body =>
    walkNode v (Node.Stmt (Stmt.ForStmt Init Cond Post Body))
      (fun w => walkSeq (WalkOptStmt w Init) (walkSeq (WalkOptExpr w Cond)
        (walkSeq (WalkOptStmt w Post)
          (walkNode w (Node.Stmt (Stmt.BlockStmt Body)) (fun u => WalkStmtList u Body)))))
  | Stmt.RangeStmt Key Value Tok X Body =>
    walkNode v (Node.Stmt (Stmt.RangeStmt Key Value Tok X Body))
      (fun w => walkSeq (WalkOptExpr w Key) (walkSeq (WalkOptExpr w Value)
        (walkSeq (WalkExpr w X)
          (walkNode w (Node.Stmt (Stmt.BlockStmt Body)) (fun u => WalkStmtList u Body)))))
  | Stmt.BlockStmt List =>
    walkNode v (Node.Stmt (Stmt.BlockStmt List)) (fun w => WalkStmtList w List)
  | Stmt.EmptyStmt => walkNode v (Node.Stmt Stmt.EmptyStmt) (fun _ => some [])
  | Stmt.BadStmt => walkNode v (Node.Stmt Stmt.BadStmt) (fun _ => some [])
  | Stmt.IfStmt Init Cond Body Else =>
    walkNode v (Node.Stmt (Stmt.IfStmt Init Cond Body Else))
      (fun w => walkSeq (WalkOptStmt w Init) (walkSeq (WalkExpr w Cond)
        (walkSeq
          (walkNode w (Node.Stmt (Stmt.BlockStmt Body)) (fun u => WalkStmtList u Body))
          (WalkOptStmt w Else))))
  | Stmt.Other kind children =>
    walkNode v (Node.Stmt (Stmt.Other kind children)) (fun w => WalkList w children)

/-- Modelled from the spec: `ast.Walk` on each statement of a list, in
order. -/
def WalkStmtList (v : visitor) : List Stmt → Option (List String)
  | [] => some []
  | s :: ss => walkSeq (WalkStmt v s) (WalkStmtList v ss)

/-- Modelled from the spec: `ast.Walk` on a statement field that may be nil;
a nil field is not walked. -/
def WalkOptStmt (v : visitor) : Option Stmt → Option (List String)
  | none => some []
  | some s => WalkStmt v s

/-- Modelled from the spec: `ast.Walk(v, node)` of the Go library `go/ast`,
which `main` calls as `ast.Walk(v, f)` on the `*ast.File` of each parsed file
and which is not part of `gofor.go`.  A file has the children `Doc` (when
non-nil), `Name` and `Decls`; a function declaration has `Doc`, `Recv` (each
when non-nil), `Name`, `Type` and `Body` (when non-nil). -/
def Walk (v : visitor) : Node → Option (List String)
  | Node.Expr e => WalkExpr v e
  | Node.Stmt s => WalkStmt v s
  | Node.Other kind => walkNode v (Node.Other kind) (fun _ => some [])
  | Node.File Doc Name Decls =>
    walkNode v (Node.File Doc Name Decls)
      (fun w => walkSeq (WalkOpt w Doc) (walkSeq (WalkExpr w Name) (WalkList w Decls)))
  | Node.FuncDecl Doc Recv Name Typ Body =>
    walkNode v (Node.FuncDecl Doc Recv Name Typ Body)
      (fun w => walkSeq (WalkOpt w Doc) (walkSeq (WalkOpt w Recv)
        (walkSeq (WalkExpr w Name) (walkSeq (WalkExpr w Typ) (WalkOptStmt w Body)))))
  | Node.Inner kind children =>
    walkNode v (Node.Inner kind children) (fun w => WalkList w children)

/-- Modelled from the spec: `ast.Walk` on each node of a list, in order. -/
def WalkList (v : visitor) : List Node → Option (List String)
  | [] => some []
  | n :: ns => walkSeq (Walk v n) (WalkList v ns)

/-- Modelled from the spec: `ast.Walk` on a node field that may be nil; a nil
field is not walked. -/
def WalkOpt (v : visitor) : Option Node → Option (List String)
  | none => some []
  | some n => Walk v n

end

mutual

/-- The for-statements and range-statements in the tree of an expression (in
the bodies of its function literals), in pre-order. -/
def loopsOfExpr : Expr → List Stmt
  | Expr.Ident _ => []
  | Expr.BasicLit _ _ => []
  | Expr.BinaryExpr X _ Y => loopsOfExpr X ++ loopsOfExpr Y
  | Expr.UnaryExpr _ X => loopsOfExpr X
  | Expr.ParenExpr X => loopsOfExpr X
  | Expr.SelectorExpr X _ => loopsOfExpr X
  | Expr.IndexExpr X Index => loopsOfExpr X ++ loopsOfExpr Index
  | Expr.CallExpr Fun Args => loopsOfExpr Fun ++ loopsOfExprList Args
  | Expr.BadExpr => []
  | Expr.FuncLit Typ Body => loopsOfExpr Typ ++ loopsOfStmtList Body
  | Expr.Other _ children => loopsOfList children

/-- The loops in the trees of a list of expressions, in order. -/
def loopsOfExprList : List Expr → List Stmt
  | [] => []
  | e :: es => loopsOfExpr e ++ loopsOfExprList es

/-- The loops in the tree of an expression field that may be nil. -/
def loopsOfOptExpr : Option Expr → List Stmt
  | none => []
  | some e => loopsOfExpr e

/-- The for-statements and range-statements in the tree of a statement, the
statement itself included, in pre-order: a loop comes before the loops nested
in its parts and in its body. -/
def loopsOfStmt : Stmt → List Stmt
  | Stmt.AssignStmt Lhs _ Rhs => loopsOfExprList Lhs ++ loopsOfExprList Rhs
  | Stmt.IncDecStmt X _ => loopsOfExpr X
  | Stmt.ExprStmt X => loopsOfExpr X
  | Stmt.SendStmt Chan Value => loopsOfExpr Chan ++ loopsOfExpr Value
  | Stmt.ForStmt Init Cond Post Body =>
    Stmt.ForStmt Init Cond Post Body ::
      (loopsOfOptStmt Init ++ (loopsOfOptExpr Cond ++
        (loopsOfOptStmt Post ++ loopsOfStmtList Body)))
  | Stmt.RangeStmt Key Value Tok X Body =>
    Stmt.RangeStmt Key Value Tok X Body ::
      (loopsOfOptExpr Key ++ (loopsOfOptExpr Value ++
        (loopsOfExpr X ++ loopsOfStmtList Body)))
  | Stmt.BlockStmt List => loopsOfStmtList List
  | Stmt.EmptyStmt => []
  | Stmt.BadStmt => []
  | Stmt.IfStmt Init Cond Body Else =>
    loopsOfOptStmt Init ++ (loopsOfExpr Cond ++
      (loopsOfStmtList Body ++ loopsOfOptStmt Else))
  | Stmt.Other _ children => loopsOfList children

/-- The loops in the trees of a list of statements, in order. -/
def loopsOfStmtList : List Stmt → List Stmt
  | [] => []
  | s :: ss => loopsOfStmt s ++ loopsOfStmtList ss

/-- The loops in the tree of a statement field that may be nil. -/
def loopsOfOptStmt : Option Stmt → List Stmt
  | none => []
  | some s => loopsOfStmt s

/-- The for-statements and range-statements in the syntax tree below a node,
the node itself included, in pre-order. -/
def loopsOf : Node → List Stmt
  | Node.Expr e => loopsOfExpr e
  | Node.Stmt s => loopsOfStmt s
  | Node.Other _ => []
  | Node.File Doc Name Decls => loopsOfOpt Doc ++ (loopsOfExpr Name ++ loopsOfList Decls)
  | Node.FuncDecl Doc Recv Name Typ Body =>
    loopsOfOpt Doc ++ (loopsOfOpt Recv ++
      (loopsOfExpr Name ++ (loopsOfExpr Typ ++ loopsOfOptStmt Body)))
  | Node.Inner _ children => loopsOfList children

/-- The loops in the trees of a list of nodes, in order. -/
def loopsOfList : List Node → List Stmt
  | [] => []
  | n :: ns => loopsOf n ++ loopsOfList ns

/-- The loops in the tree of a node field that may be nil. -/
def loopsOfOpt : Option Node → List Stmt
  | none => []
  | some n => loopsOf n

end

/-- The statement
`for i := 0; i < n; i++ { for range ch { }; for { for x != y { } } }`:
loops nested in the body of a loop. -/
def exNested : Stmt :=
  Stmt.ForStmt
    (some (Stmt.AssignStmt [Expr.Ident "i"] Token.DEFINE [Expr.BasicLit Token.INT "0"]))
    (some (Expr.BinaryExpr (Expr.Ident "i") Token.LSS (Expr.Ident "n")))
    (some (Stmt.IncDecStmt (Expr.Ident "i") Token.INC))
    [Stmt.RangeStmt none none (Token.OTHER 0) (Expr.Ident "ch") [],
     Stmt.ForStmt none none none
       [Stmt.ForStmt none
         (some (Expr.BinaryExpr (Expr.Ident "x") Token.NEQ (Expr.Ident "y"))) none []]]

/-- The expression `func() { for j := 9; j <= m; j-- { } }()`: a loop in the
body of a function literal. -/
def exFuncLitCall : Expr :=
  Expr.CallExpr
    (Expr.FuncLit (Expr.Other "FuncType" [Node.Inner "FieldList" []])
      [Stmt.ForStmt
        (some (Stmt.AssignStmt [Expr.Ident "j"] Token.DEFINE [Expr.BasicLit Token.INT "9"]))
        (some (Expr.BinaryExpr (Expr.Ident "j") Token.LEQ (Expr.Ident "m")))
        (some (Stmt.IncDecStmt (Expr.Ident "j") Token.DEC)) []])
    []

/-- The file
`package main; func f() { if ok { <exNested> } else { switch { case c: for range xs { } } }; <exFuncLitCall> }`:
a file node with a function declaration whose body has loops under an `if`,
under a `switch` and in a function literal. -/
def exFile : Node :=
  Node.File none (Expr.Ident "main")
    [Node.FuncDecl none none (Expr.Ident "f")
      (Expr.Other "FuncType" [Node.Inner "FieldList" []])
      (some (Stmt.BlockStmt
        [Stmt.IfStmt none (Expr.Ident "ok") [exNested]
          (some (Stmt.BlockStmt
            [Stmt.Other "SwitchStmt"
              [Node.Stmt (Stmt.BlockStmt
                [Stmt.Other "CaseClause"
                  [Node.Expr (Expr.Ident "c"),
                   Node.Stmt (Stmt.RangeStmt none none (Token.OTHER 0) (Expr.Ident "xs")
                     [])]])]])),
         Stmt.ExprStmt exFuncLitCall]))]

/-- `line` is the one line `Visit` prints when it is called on the loop `l`,
returning the visitor itself. -/
def Classified (v : visitor) (l : Stmt) (line : String) : Prop :=
  Visit v (some (Node.Stmt l)) = some ⟨[line], some v⟩

/-! ## Auxiliary lemmas -/

theorem countingLine_data (mn mx st : String) :
    (countingLine mn mx st).data =
      "counting loop min ".data ++ (mn.data ++ (", max ".data ++ (mx.data ++
        (", stride ".data ++ st.data)))) := by
  simp [countingLine, String.data_append]

theorem countingLine_not_label (mn mx st l : String) (hl : l ∈ rejectionLabels) :
    countingLine mn mx st ≠ l := by
  intro h
  have hd := countingLine_data mn mx st
  rw [h] at hd
  simp only [rejectionLabels, List.mem_cons, List.mem_singleton, List.not_mem_nil, or_false] at hl
  rcases hl with rfl | rfl | rfl | rfl | rfl | rfl | rfl | rfl | rfl | rfl | rfl | rfl | rfl |
    rfl | rfl | rfl | rfl | rfl <;> simp at hd


theorem stride_of_countingPost (x : String) (post : Stmt) (h : IsCountingPost x post) :
    ∃ st, st ∈ strideKinds ∧ Visit.stride post = some st := by
  rcases h with ⟨tok, rfl⟩ | ⟨tok, r, rfl, _⟩
  · by_cases ht : tok = Token.INC <;> simp [Visit.stride, strideKinds, ht]
  · cases r with
    | BasicLit Kind Value =>
      by_cases hc : Value = "1" ∧ tok = Token.ADD_ASSIGN
      · exact ⟨"1", by simp [strideKinds], by simp [Visit.stride, hc]⟩
      · exact ⟨"literal", by simp [strideKinds], by simp [Visit.stride, hc]⟩
    | _ => simp [Visit.stride, strideKinds]

theorem checkPost_pass (x : String) (post : Stmt) (h : IsCountingPost x post) :
    Visit.checkPost x post = some none := by
  rcases h with ⟨tok, rfl⟩ | ⟨tok, r, rfl, ht⟩
  · simp [Visit.checkPost]
  · rcases ht with rfl | rfl <;> simp [Visit.checkPost]

theorem checkPost_reject (x : String) (post : Stmt) (h : ¬ IsCountingPost x post) :
    ∃ l, l ∈ rejectionLabels ∧ Visit.checkPost x post = some (some l) := by
  cases post with
  | AssignStmt Lhs Tok Rhs =>
    rcases Lhs with _ | ⟨a, _ | ⟨a2, Lhs⟩⟩
    · simp [Visit.checkPost, rejectionLabels]
    · rcases Rhs with _ | ⟨r, _ | ⟨r2, Rhs⟩⟩
      · simp [Visit.checkPost, rejectionLabels]
      · cases a with
        | Ident Name =>
          by_cases hn : Name = x
          · subst hn
            by_cases ht : Tok = Token.ADD_ASSIGN ∨ Tok = Token.SUB_ASSIGN
            · exact absurd (Or.inr ⟨Tok, r, rfl, ht⟩) h
            · have ht2 : Tok ≠ Token.ADD_ASSIGN ∧ Tok ≠ Token.SUB_ASSIGN := by
                constructor
                · intro e; exact ht (Or.inl e)
                · intro e; exact ht (Or.inr e)
              simp [Visit.checkPost, rejectionLabels, ht2]
          · simp [Visit.checkPost, rejectionLabels, hn]
        | _ => simp [Visit.checkPost, rejectionLabels]
      · simp [Visit.checkPost, rejectionLabels]
    · simp [Visit.checkPost, rejectionLabels]
  | IncDecStmt X Tok =>
    cases X with
    | Ident Name =>
      by_cases hn : Name = x
      · subst hn
        exact absurd (Or.inl ⟨Tok, rfl⟩) h
      · simp [Visit.checkPost, rejectionLabels, hn]
    | _ => simp [Visit.checkPost, rejectionLabels]
  | _ => simp [Visit.checkPost, rejectionLabels]


theorem forStmt_counting (v : visitor) (x : String) (tok : Token) (r : Expr) (op : Token)
    (Y : Expr) (post : Stmt) (st : String) (hop : op = Token.LSS ∨ op = Token.LEQ)
    (hpost : IsCountingPost x post) (hst : Visit.stride post = some st) :
    Visit.forStmt v (some (Stmt.AssignStmt [Expr.Ident x] tok [r]))
        (some (Expr.BinaryExpr (Expr.Ident x) op Y)) (some post) =
      some ⟨[countingLine (Visit.min r) (Visit.max Y) st], some v⟩ := by
  have hcp := checkPost_pass x post hpost
  rcases hop with rfl | rfl <;>
    simp [Visit.forStmt, Visit.checkInit, Visit.report, Println, hcp, hst]

theorem checkInit_reject (v : visitor) (Init : Stmt) (x : String) (Y : Expr) (post : Stmt)
    (h : ¬ ∃ tok r, Init = Stmt.AssignStmt [Expr.Ident x] tok [r] ∧ IsCountingPost x post) :
    ∃ l, l ∈ rejectionLabels ∧ Visit.checkInit v Init x Y post = some ⟨[l], some v⟩ := by
  cases Init with
  | AssignStmt Lhs Tok Rhs =>
    rcases Lhs with _ | ⟨a, _ | ⟨a2, Lhs⟩⟩
    · simp [Visit.checkInit, Println, rejectionLabels]
    · rcases Rhs with _ | ⟨r, _ | ⟨r2, Rhs⟩⟩
      · simp [Visit.checkInit, Println, rejectionLabels]
      · cases a with
        | Ident Name =>
          by_cases hn : Name = x
          · subst hn
            have hp : ¬ IsCountingPost Name post := fun hp => h ⟨Tok, r, rfl, hp⟩
            obtain ⟨l, hl, hc⟩ := checkPost_reject Name post hp
            exact ⟨l, hl, by simp [Visit.checkInit, Println, hc]⟩
          · simp [Visit.checkInit, Println, rejectionLabels, hn]
        | _ => simp [Visit.checkInit, Println, rejectionLabels]
      · simp [Visit.checkInit, Println, rejectionLabels]
    · simp [Visit.checkInit, Println, rejectionLabels]
  | _ => simp [Visit.checkInit, Println, rejectionLabels]

theorem forStmt_reject (v : visitor) (Init : Option Stmt) (Cond : Option Expr)
    (Post : Option Stmt) (h : ¬ IsCountingShape Init Cond Post) :
    ∃ l, l ∈ rejectionLabels ∧ Visit.forStmt v Init Cond Post = some ⟨[l], some v⟩ := by
  cases Init with
  | none =>
    cases Cond <;> cases Post <;> simp [Visit.forStmt, Println, rejectionLabels]
  | some init =>
    cases Post with
    | none => simp [Visit.forStmt, Println, rejectionLabels]
    | some post =>
      cases Cond with
      | none => simp [Visit.forStmt, Println, rejectionLabels]
      | some cond =>
        cases cond with
        | BinaryExpr X Op Y =>
          by_cases hop : Op = Token.LSS ∨ Op = Token.LEQ
          · have hop2 : ¬ (Op ≠ Token.LSS ∧ Op ≠ Token.LEQ) := by
              rintro ⟨h1, h2⟩
              exact hop.elim h1 h2
            cases X with
            | Ident Name =>
              have hi : ¬ ∃ tok r, init = Stmt.AssignStmt [Expr.Ident Name] tok [r] ∧
                  IsCountingPost Name post := by
                rintro ⟨tok, r, rfl, hp⟩
                exact h ⟨Name, tok, r, Op, Y, post, rfl, rfl, hop, rfl, hp⟩
              obtain ⟨l, hl, hc⟩ := checkInit_reject v init Name Y post hi
              exact ⟨l, hl, by simp [Visit.forStmt, hop2, hc]⟩
            | _ => simp [Visit.forStmt, Println, rejectionLabels, hop2]
          · have hop2 : Op ≠ Token.LSS ∧ Op ≠ Token.LEQ :=
              ⟨fun e => hop (Or.inl e), fun e => hop (Or.inr e)⟩
            simp [Visit.forStmt, Println, rejectionLabels, hop2]
        | _ => simp [Visit.forStmt, Println, rejectionLabels]


theorem forStmt_counting_kinds (v : visitor) (x : String) (tok : Token) (r : Expr)
    (op : Token) (Y : Expr) (post : Stmt) (hop : op = Token.LSS ∨ op = Token.LEQ)
    (hpost : IsCountingPost x post) :
    ∃ st, st ∈ strideKinds ∧ Visit.stride post = some st ∧
      Visit.forStmt v (some (Stmt.AssignStmt [Expr.Ident x] tok [r]))
          (some (Expr.BinaryExpr (Expr.Ident x) op Y)) (some post) =
        some ⟨[countingLine (Visit.min r) (Visit.max Y) st], some v⟩ := by
  obtain ⟨st, hmem, hst⟩ := stride_of_countingPost x post hpost
  exact ⟨st, hmem, hst, forStmt_counting v x tok r op Y post st hop hpost hst⟩

theorem min_mem_minKinds (r : Expr) : Visit.min r ∈ minKinds := by
  cases r with
  | BasicLit Kind Value =>
    by_cases h0 : Value = "0" <;> simp [Visit.min, minKinds, h0]
  | _ => simp [Visit.min, minKinds]

theorem max_mem_maxKinds (Y : Expr) : Visit.max Y ∈ maxKinds := by
  cases Y <;> simp [Visit.max, maxKinds]

theorem counting_shape_reported (v : visitor) (Init : Option Stmt) (Cond : Option Expr)
    (Post : Option Stmt) (Body : List Stmt) (h : IsCountingShape Init Cond Post) :
    ∃ mn mx st, mn ∈ minKinds ∧ mx ∈ maxKinds ∧ st ∈ strideKinds ∧
      Visit v (some (Node.Stmt (Stmt.ForStmt Init Cond Post Body))) =
        some ⟨[countingLine mn mx st], some v⟩ := by
  obtain ⟨x, tok, r, op, Y, post, rfl, rfl, hop, rfl, hpost⟩ := h
  obtain ⟨st, hmem, _, hv⟩ := forStmt_counting_kinds v x tok r op Y post hop hpost
  exact ⟨Visit.min r, Visit.max Y, st, min_mem_minKinds r, max_mem_maxKinds Y, hmem,
    by simpa [Visit] using hv⟩

theorem min_eq_zero_iff (r : Expr) :
    Visit.min r = "0" ↔ ∃ k, r = Expr.BasicLit k "0" := by
  cases r with
  | BasicLit Kind Value =>
    by_cases h0 : Value = "0"
    · subst h0; simp [Visit.min]
    · simp [Visit.min, h0]
  | _ => simp [Visit.min]

theorem min_eq_literal_iff (r : Expr) :
    Visit.min r = "literal" ↔ ∃ k val, r = Expr.BasicLit k val ∧ val ≠ "0" := by
  cases r with
  | BasicLit Kind Value =>
    by_cases h0 : Value = "0"
    · subst h0; simp [Visit.min]
    · simp only [Visit.min, h0, if_false, true_iff]
      exact ⟨Kind, Value, rfl, h0⟩
  | _ => simp [Visit.min]

theorem min_eq_nonliteral_iff (r : Expr) :
    Visit.min r = "non-literal" ↔ ∀ k val, r ≠ Expr.BasicLit k val := by
  cases r with
  | BasicLit Kind Value =>
    by_cases h0 : Value = "0"
    · subst h0; simp [Visit.min]
    · simp [Visit.min, h0]
  | _ => simp [Visit.min]

theorem max_eq_literal_iff (Y : Expr) :
    Visit.max Y = "literal" ↔ ∃ k val, Y = Expr.BasicLit k val := by
  cases Y <;> simp [Visit.max]

theorem max_eq_nonliteral_iff (Y : Expr) :
    Visit.max Y = "non-literal" ↔ ∀ k val, Y ≠ Expr.BasicLit k val := by
  cases Y <;> simp [Visit.max]

set_option maxRecDepth 100000 in
theorem countingLine_injective :
    ∀ a ∈ minKinds, ∀ b ∈ maxKinds, ∀ c ∈ strideKinds,
    ∀ a2 ∈ minKinds, ∀ b2 ∈ maxKinds, ∀ c2 ∈ strideKinds,
      countingLine a b c = countingLine a2 b2 c2 → a = a2 ∧ b = b2 ∧ c = c2 := by
  decide

theorem recognized_shape (v : visitor) (node : Option Node) (a b c : String)
    (h : Visit v node = some ⟨[countingLine a b c], some v⟩) :
    ∃ Init Cond Post Body, node = some (Node.Stmt (Stmt.ForStmt Init Cond Post Body)) ∧
      IsCountingShape Init Cond Post := by
  cases node with
  | none => simp [Visit] at h
  | some n =>
    cases n with
    | Expr e => simp [Visit] at h
    | Other kind => simp [Visit] at h
    | File Doc Name Decls => simp [Visit] at h
    | FuncDecl Doc Recv Name Typ Body => simp [Visit] at h
    | Inner kind children => simp [Visit] at h
    | Stmt s =>
      cases s with
      | RangeStmt Key Value Tok X Body =>
        simp only [Visit, Println, Option.some.injEq, VisitResult.mk.injEq, List.cons.injEq,
          and_true] at h
        exact absurd h.symm (countingLine_not_label a b c "range" (by simp [rejectionLabels]))
      | ForStmt Init Cond Post Body =>
        refine ⟨Init, Cond, Post, Body, rfl, ?_⟩
        by_contra hns
        obtain ⟨l, hl, hv⟩ := forStmt_reject v Init Cond Post hns
        simp only [Visit] at h
        rw [h] at hv
        simp only [Option.some.injEq, VisitResult.mk.injEq, List.cons.injEq, and_true] at hv
        exact countingLine_not_label a b c l hl hv
      | _ => simp [Visit] at h

theorem checkPost_reject_post (x : String) (post : Stmt) (h : ¬ IsCountingPost x post) :
    ∃ l, l ∈ postLabels ∧ Visit.checkPost x post = some (some l) := by
  cases post with
  | AssignStmt Lhs Tok Rhs =>
    rcases Lhs with _ | ⟨a, _ | ⟨a2, Lhs⟩⟩
    · simp [Visit.checkPost, postLabels]
    · rcases Rhs with _ | ⟨r, _ | ⟨r2, Rhs⟩⟩
      · simp [Visit.checkPost, postLabels]
      · cases a with
        | Ident Name =>
          by_cases hn : Name = x
          · subst hn
            by_cases ht : Tok = Token.ADD_ASSIGN ∨ Tok = Token.SUB_ASSIGN
            · exact absurd (Or.inr ⟨Tok, r, rfl, ht⟩) h
            · have ht2 : Tok ≠ Token.ADD_ASSIGN ∧ Tok ≠ Token.SUB_ASSIGN :=
                ⟨fun e => ht (Or.inl e), fun e => ht (Or.inr e)⟩
              simp [Visit.checkPost, postLabels, ht2]
          · simp [Visit.checkPost, postLabels, hn]
        | _ => simp [Visit.checkPost, postLabels]
      · simp [Visit.checkPost, postLabels]
    · simp [Visit.checkPost, postLabels]
  | IncDecStmt X Tok =>
    cases X with
    | Ident Name =>
      by_cases hn : Name = x
      · subst hn
        exact absurd (Or.inl ⟨Tok, rfl⟩) h
      · simp [Visit.checkPost, postLabels, hn]
    | _ => simp [Visit.checkPost, postLabels]
  | _ => simp [Visit.checkPost, postLabels]

theorem checkInit_line (v : visitor) (init : Stmt) (x : String) (Y : Expr) (post : Stmt) :
    ∃ line, Visit.checkInit v init x Y post = some ⟨[line], some v⟩ ∧
      (line ∈ initLabels ∨ line ∈ postLabels ∨ ∃ mn mx st, line = countingLine mn mx st) := by
  cases init with
  | AssignStmt Lhs Tok Rhs =>
    rcases Lhs with _ | ⟨a, _ | ⟨a2, Lhs⟩⟩
    · simp [Visit.checkInit, Println, initLabels]
    · rcases Rhs with _ | ⟨r, _ | ⟨r2, Rhs⟩⟩
      · simp [Visit.checkInit, Println, initLabels]
      · cases a with
        | Ident Name =>
          by_cases hn : Name = x
          · subst hn
            by_cases hp : IsCountingPost Name post
            · obtain ⟨st, _, hst⟩ := stride_of_countingPost Name post hp
              have hc := checkPost_pass Name post hp
              exact ⟨countingLine (Visit.min r) (Visit.max Y) st,
                by simp [Visit.checkInit, Visit.report, Println, hc, hst],
                Or.inr (Or.inr ⟨_, _, _, rfl⟩)⟩
            · obtain ⟨l, hl, hc⟩ := checkPost_reject_post Name post hp
              exact ⟨l, by simp [Visit.checkInit, Println, hc], Or.inr (Or.inl hl)⟩
          · simp [Visit.checkInit, Println, initLabels, hn]
        | _ => simp [Visit.checkInit, Println, initLabels]
      · simp [Visit.checkInit, Println, initLabels]
    · simp [Visit.checkInit, Println, initLabels]
  | _ => simp [Visit.checkInit, Println, initLabels]

theorem forStmt_present_line (v : visitor) (init : Stmt) (Cond : Option Expr) (post : Stmt) :
    ∃ line, Visit.forStmt v (some init) Cond (some post) = some ⟨[line], some v⟩ ∧
      (line ∈ condLabels ∨ line ∈ initLabels ∨ line ∈ postLabels ∨
        ∃ mn mx st, line = countingLine mn mx st) := by
  cases Cond with
  | none => simp [Visit.forStmt, Println, condLabels]
  | some cond =>
    cases cond with
    | BinaryExpr X Op Y =>
      by_cases hop : Op ≠ Token.LSS ∧ Op ≠ Token.LEQ
      · simp [Visit.forStmt, Println, condLabels, hop]
      · cases X with
        | Ident Name =>
          obtain ⟨line, hv, hl⟩ := checkInit_line v init Name Y post
          exact ⟨line, by simp [Visit.forStmt, hop, hv], Or.inr hl⟩
        | _ => simp [Visit.forStmt, Println, condLabels, hop]
    | _ => simp [Visit.forStmt, Println, condLabels]

theorem late_label_mem (l : String)
    (h : l ∈ condLabels ∨ l ∈ initLabels ∨ l ∈ postLabels) : l ∈ rejectionLabels := by
  simp only [condLabels, initLabels, postLabels, List.mem_cons, List.mem_singleton,
    List.not_mem_nil, or_false] at h
  rcases h with (rfl | rfl) | (rfl | rfl | rfl | rfl) |
    (rfl | rfl | rfl | rfl | rfl | rfl | rfl) <;> simp [rejectionLabels]

theorem absent_label_not_late (l : String) (hl : l ∈ absentLabels)
    (h : l ∈ condLabels ∨ l ∈ initLabels ∨ l ∈ postLabels) : False := by
  simp only [absentLabels, List.mem_cons, List.mem_singleton, List.not_mem_nil,
    or_false] at hl
  rcases hl with rfl | rfl | rfl | rfl <;> simp [condLabels, initLabels, postLabels] at h

theorem forStmt_present_not_absent (v : visitor) (init : Stmt) (Cond : Option Expr)
    (post : Stmt) (l : String) (hl : l ∈ absentLabels) :
    Visit.forStmt v (some init) Cond (some post) ≠ some ⟨[l], some v⟩ := by
  intro h
  obtain ⟨line, hv, hline⟩ := forStmt_present_line v init Cond post
  rw [h] at hv
  simp only [Option.some.injEq, VisitResult.mk.injEq, List.cons.injEq, and_true] at hv
  subst hv
  rcases hline with h1 | h2 | h3 | ⟨mn, mx, st, h4⟩
  · exact absent_label_not_late l hl (Or.inl h1)
  · exact absent_label_not_late l hl (Or.inr (Or.inl h2))
  · exact absent_label_not_late l hl (Or.inr (Or.inr h3))
  · refine countingLine_not_label mn mx st l ?_ h4.symm
    simp only [absentLabels, List.mem_cons, List.mem_singleton, List.not_mem_nil,
      or_false] at hl
    rcases hl with rfl | rfl | rfl | rfl <;> simp [rejectionLabels]

theorem strideSwitch_eq_stride (Post : Stmt) :
    Visit.strideSwitch Post = Visit.stride Post := by
  cases Post with
  | AssignStmt Lhs Tok Rhs =>
    rcases Rhs with _ | ⟨r, Rhs⟩
    · simp [Visit.strideSwitch, Visit.stride, asAssignStmt, asIncDecStmt]
    · cases r with
      | BasicLit Kind Value =>
        by_cases h1 : Value = "1" <;> by_cases h2 : Tok = Token.ADD_ASSIGN <;>
          simp [Visit.strideSwitch, Visit.stride, asAssignStmt, asIncDecStmt, asBasicLit,
            h1, h2]
      | _ => simp [Visit.strideSwitch, Visit.stride, asAssignStmt, asIncDecStmt, asBasicLit]
  | IncDecStmt X Tok =>
    by_cases h : Tok = Token.INC <;>
      simp [Visit.strideSwitch, Visit.stride, asAssignStmt, asIncDecStmt, h]
  | _ => simp [Visit.strideSwitch, Visit.stride, asAssignStmt, asIncDecStmt]

theorem visit_line (v : visitor) (Init : Option Stmt) (Cond : Option Expr)
    (Post : Option Stmt) (Body : List Stmt) :
    ∃ line, Visit v (some (Node.Stmt (Stmt.ForStmt Init Cond Post Body))) =
        some ⟨[line], some v⟩ ∧
      (line ∈ rejectionLabels ∨ ∃ mn mx st, line = countingLine mn mx st) := by
  by_cases hs : IsCountingShape Init Cond Post
  · obtain ⟨mn, mx, st, _, _, _, hv⟩ := counting_shape_reported v Init Cond Post Body hs
    exact ⟨_, hv, Or.inr ⟨mn, mx, st, rfl⟩⟩
  · obtain ⟨l, hl, hv⟩ := forStmt_reject v Init Cond Post hs
    exact ⟨l, by simpa [Visit] using hv, Or.inl hl⟩

theorem visit_returns (v : visitor) (node : Option Node) :
    ∃ out, Visit v node = some ⟨out, some v⟩ := by
  cases node with
  | none => exact ⟨[], by simp [Visit]⟩
  | some n =>
    cases n with
    | Expr e => exact ⟨[], by simp [Visit]⟩
    | Other kind => exact ⟨[], by simp [Visit]⟩
    | File Doc Name Decls => exact ⟨[], by simp [Visit]⟩
    | FuncDecl Doc Recv Name Typ Body => exact ⟨[], by simp [Visit]⟩
    | Inner kind children => exact ⟨[], by simp [Visit]⟩
    | Stmt s =>
      cases s with
      | RangeStmt Key Value Tok X Body => exact ⟨["range"], by simp [Visit, Println]⟩
      | ForStmt Init Cond Post Body =>
        obtain ⟨line, hv, _⟩ := visit_line v Init Cond Post Body
        exact ⟨[line], hv⟩
      | _ => exact ⟨[], by simp [Visit]⟩

theorem checkPost_pass_lengths (x : String) (post : Stmt) (L : List Expr) (t : Token)
    (R : List Expr) (h : Visit.checkPost x post = some none)
    (hp : post = Stmt.AssignStmt L t R) : L.length = 1 ∧ R.length = 1 := by
  by_cases hc : IsCountingPost x post
  · subst hp
    rcases hc with ⟨tok, h2⟩ | ⟨tok, r, h2, _⟩
    · cases h2
    · cases h2; simp
  · obtain ⟨l, _, hl⟩ := checkPost_reject x post hc
    rw [hl] at h
    simp at h

theorem walkNode_quiet (v : visitor) (node : Node) (kids : visitor → Option (List String))
    (ks : List String) (hv : Visit v (some node) = some ⟨[], some v⟩)
    (hk : kids v = some ks) : walkNode v node kids = some ks := by
  have h0 : Visit v none = some ⟨[], some v⟩ := by simp [Visit]
  simp [walkNode, hv, hk, h0]

theorem walkNode_loop (v : visitor) (node : Node) (kids : visitor → Option (List String))
    (line : String) (ks : List String) (hv : Visit v (some node) = some ⟨[line], some v⟩)
    (hk : kids v = some ks) : walkNode v node kids = some (line :: ks) := by
  have h0 : Visit v none = some ⟨[], some v⟩ := by simp [Visit]
  simp [walkNode, hv, hk, h0]

theorem walkBlock_eq (v : visitor) (Body : List Stmt) (lb : List String)
    (hb : WalkStmtList v Body = some lb) :
    walkNode v (Node.Stmt (Stmt.BlockStmt Body)) (fun u => WalkStmtList u Body) =
      some lb :=
  walkNode_quiet v _ _ lb (by simp [Visit]) hb

mutual

theorem walkExpr_loops (v : visitor) :
    ∀ e, ∃ lines, WalkExpr v e = some lines ∧
      List.Forall₂ (Classified v) (loopsOfExpr e) lines
  | Expr.Ident Name => by
    refine ⟨[], ?_, by simp [loopsOfExpr]⟩
    rw [WalkExpr]
    exact walkNode_quiet v _ _ [] (by simp [Visit]) rfl
  | Expr.BasicLit Kind Value => by
    refine ⟨[], ?_, by simp [loopsOfExpr]⟩
    rw [WalkExpr]
    exact walkNode_quiet v _ _ [] (by simp [Visit]) rfl
  | Expr.BinaryExpr X Op Y => by
    obtain ⟨l1, h1, f1⟩ := walkExpr_loops v X
    obtain ⟨l2, h2, f2⟩ := walkExpr_loops v Y
    refine ⟨l1 ++ l2, ?_, ?_⟩
    · rw [WalkExpr]
      exact walkNode_quiet v _ _ _ (by simp [Visit]) (by simp [walkSeq, h1, h2])
    · simp only [loopsOfExpr]
      exact List.rel_append f1 f2
  | Expr.UnaryExpr Op X => by
    obtain ⟨l1, h1, f1⟩ := walkExpr_loops v X
    refine ⟨l1, ?_, by simpa only [loopsOfExpr] using f1⟩
    rw [WalkExpr]
    exact walkNode_quiet v _ _ _ (by simp [Visit]) h1
  | Expr.ParenExpr X => by
    obtain ⟨l1, h1, f1⟩ := walkExpr_loops v X
    refine ⟨l1, ?_, by simpa only [loopsOfExpr] using f1⟩
    rw [WalkExpr]
    exact walkNode_quiet v _ _ _ (by simp [Visit]) h1
  | Expr.SelectorExpr X Sel => by
    obtain ⟨l1, h1, f1⟩ := walkExpr_loops v X
    have hsel : walkNode v (Node.Expr (Expr.Ident Sel)) (fun _ => some []) = some [] :=
      walkNode_quiet v _ _ [] (by simp [Visit]) rfl
    refine ⟨l1, ?_, by simpa only [loopsOfExpr] using f1⟩
    rw [WalkExpr]
    exact walkNode_quiet v _ _ _ (by simp [Visit]) (by simp [walkSeq, h1, hsel])
  | Expr.IndexExpr X Index => by
    obtain ⟨l1, h1, f1⟩ := walkExpr_loops v X
    obtain ⟨l2, h2, f2⟩ := walkExpr_loops v Index
    refine ⟨l1 ++ l2, ?_, ?_⟩
    · rw [WalkExpr]
      exact walkNode_quiet v _ _ _ (by simp [Visit]) (by simp [walkSeq, h1, h2])
    · simp only [loopsOfExpr]
      exact List.rel_append f1 f2
  | Expr.CallExpr Fun Args => by
    obtain ⟨l1, h1, f1⟩ := walkExpr_loops v Fun
    obtain ⟨l2, h2, f2⟩ := walkExprList_loops v Args
    refine ⟨l1 ++ l2, ?_, ?_⟩
    · rw [WalkExpr]
      exact walkNode_quiet v _ _ _ (by simp [Visit]) (by simp [walkSeq, h1, h2])
    · simp only [loopsOfExpr]
      exact List.rel_append f1 f2
  | Expr.BadExpr => by
    refine ⟨[], ?_, by simp [loopsOfExpr]⟩
    rw [WalkExpr]
    exact walkNode_quiet v _ _ [] (by simp [Visit]) rfl
  | Expr.FuncLit Typ Body => by
    obtain ⟨l1, h1, f1⟩ := walkExpr_loops v Typ
    obtain ⟨l2, h2, f2⟩ := walkStmtList_loops v Body
    refine ⟨l1 ++ l2, ?_, ?_⟩
    · rw [WalkExpr]
      exact walkNode_quiet v _ _ _ (by simp [Visit])
        (by simp [walkSeq, h1, walkBlock_eq v Body l2 h2])
    · simp only [loopsOfExpr]
      exact List.rel_append f1 f2
  | Expr.Other kind children => by
    obtain ⟨l1, h1, f1⟩ := walkList_loops v children
    refine ⟨l1, ?_, by simpa only [loopsOfExpr] using f1⟩
    rw [WalkExpr]
    exact walkNode_quiet v _ _ _ (by simp [Visit]) h1

theorem walkExprList_loops (v : visitor) :
    ∀ es, ∃ lines, WalkExprList v es = some lines ∧
      List.Forall₂ (Classified v) (loopsOfExprList es) lines
  | [] => ⟨[], by simp [WalkExprList], by simp [loopsOfExprList]⟩
  | e :: es => by
    obtain ⟨l1, h1, f1⟩ := walkExpr_loops v e
    obtain ⟨l2, h2, f2⟩ := walkExprList_loops v es
    refine ⟨l1 ++ l2, by simp [WalkExprList, walkSeq, h1, h2], ?_⟩
    simp only [loopsOfExprList]
    exact List.rel_append f1 f2

theorem walkOptExpr_loops (v : visitor) :
    ∀ oe, ∃ lines, WalkOptExpr v oe = some lines ∧
      List.Forall₂ (Classified v) (loopsOfOptExpr oe) lines
  | none => ⟨[], by simp [WalkOptExpr], by simp [loopsOfOptExpr]⟩
  | some e => by
    obtain ⟨l1, h1, f1⟩ := walkExpr_loops v e
    exact ⟨l1, by simpa only [WalkOptExpr] using h1, by simpa only [loopsOfOptExpr] using f1⟩

theorem walkStmt_loops (v : visitor) :
    ∀ s, ∃ lines, WalkStmt v s = some lines ∧
      List.Forall₂ (Classified v) (loopsOfStmt s) lines
  | Stmt.AssignStmt Lhs Tok Rhs => by
    obtain ⟨l1, h1, f1⟩ := walkExprList_loops v Lhs
    obtain ⟨l2, h2, f2⟩ := walkExprList_loops v Rhs
    refine ⟨l1 ++ l2, ?_, ?_⟩
    · rw [WalkStmt]
      exact walkNode_quiet v _ _ _ (by simp [Visit]) (by simp [walkSeq, h1, h2])
    · simp only [loopsOfStmt]
      exact List.rel_append f1 f2
  | Stmt.IncDecStmt X Tok => by
    obtain ⟨l1, h1, f1⟩ := walkExpr_loops v X
    refine ⟨l1, ?_, by simpa only [loopsOfStmt] using f1⟩
    rw [WalkStmt]
    exact walkNode_quiet v _ _ _ (by simp [Visit]) h1
  | Stmt.ExprStmt X => by
    obtain ⟨l1, h1, f1⟩ := walkExpr_loops v X
    refine ⟨l1, ?_, by simpa only [loopsOfStmt] using f1⟩
    rw [WalkStmt]
    exact walkNode_quiet v _ _ _ (by simp [Visit]) h1
  | Stmt.SendStmt Chan Value => by
    obtain ⟨l1, h1, f1⟩ := walkExpr_loops v Chan
    obtain ⟨l2, h2, f2⟩ := walkExpr_loops v Value
    refine ⟨l1 ++ l2, ?_, ?_⟩
    · rw [WalkStmt]
      exact walkNode_quiet v _ _ _ (by simp [Visit]) (by simp [walkSeq, h1, h2])
    · simp only [loopsOfStmt]
      exact List.rel_append f1 f2
  | Stmt.ForStmt Init Cond Post Body => by
    obtain ⟨line, hv, _⟩ := visit_line v Init Cond Post Body
    obtain ⟨li, hi, fi⟩ := walkOptStmt_loops v Init
    obtain ⟨lc, hc, fc⟩ := walkOptExpr_loops v Cond
    obtain ⟨lp, hp, fp⟩ := walkOptStmt_loops v Post
    obtain ⟨lb, hb, fb⟩ := walkStmtList_loops v Body
    refine ⟨line :: (li ++ (lc ++ (lp ++ lb))), ?_, ?_⟩
    · rw [WalkStmt]
      exact walkNode_loop v _ _ line _ hv
        (by simp [walkSeq, hi, hc, hp, walkBlock_eq v Body lb hb])
    · simp only [loopsOfStmt]
      exact List.Forall₂.cons hv
        (List.rel_append fi (List.rel_append fc (List.rel_append fp fb)))
  | Stmt.RangeStmt Key Value Tok X Body => by
    have hv : Visit v (some (Node.Stmt (Stmt.RangeStmt Key Value Tok X Body))) =
        some ⟨["range"], some v⟩ := by simp [Visit, Println]
    obtain ⟨lk, hk, fk⟩ := walkOptExpr_loops v Key
    obtain ⟨lv, hl, fv⟩ := walkOptExpr_loops v Value
    obtain ⟨lx, hx, fx⟩ := walkExpr_loops v X
    obtain ⟨lb, hb, fb⟩ := walkStmtList_loops v Body
    refine ⟨"range" :: (lk ++ (lv ++ (lx ++ lb))), ?_, ?_⟩
    · rw [WalkStmt]
      exact walkNode_loop v _ _ "range" _ hv
        (by simp [walkSeq, hk, hl, hx, walkBlock_eq v Body lb hb])
    · simp only [loopsOfStmt]
      exact List.Forall₂.cons hv
        (List.rel_append fk (List.rel_append fv (List.rel_append fx fb)))
  | Stmt.BlockStmt L => by
    obtain ⟨lb, hb, fb⟩ := walkStmtList_loops v L
    refine ⟨lb, ?_, by simpa only [loopsOfStmt] using fb⟩
    rw [WalkStmt]
    exact walkBlock_eq v L lb hb
  | Stmt.EmptyStmt => by
    refine ⟨[], ?_, by simp [loopsOfStmt]⟩
    rw [WalkStmt]
    exact walkNode_quiet v _ _ [] (by simp [Visit]) rfl
  | Stmt.BadStmt => by
    refine ⟨[], ?_, by simp [loopsOfStmt]⟩
    rw [WalkStmt]
    exact walkNode_quiet v _ _ [] (by simp [Visit]) rfl
  | Stmt.IfStmt Init Cond Body Else => by
    obtain ⟨li, hi, fi⟩ := walkOptStmt_loops v Init
    obtain ⟨lc, hc, fc⟩ := walkExpr_loops v Cond
    obtain ⟨lb, hb, fb⟩ := walkStmtList_loops v Body
    obtain ⟨le, he, fe⟩ := walkOptStmt_loops v Else
    refine ⟨li ++ (lc ++ (lb ++ le)), ?_, ?_⟩
    · rw [WalkStmt]
      exact walkNode_quiet v _ _ _ (by simp [Visit])
        (by simp [walkSeq, hi, hc, he, walkBlock_eq v Body lb hb])
    · simp only [loopsOfStmt]
      exact List.rel_append fi (List.rel_append fc (List.rel_append fb fe))
  | Stmt.Other kind children => by
    obtain ⟨l1, h1, f1⟩ := walkList_loops v children
    refine ⟨l1, ?_, by simpa only [loopsOfStmt] using f1⟩
    rw [WalkStmt]
    exact walkNode_quiet v _ _ _ (by simp [Visit]) h1

theorem walkStmtList_loops (v : visitor) :
    ∀ ss, ∃ lines, WalkStmtList v ss = some lines ∧
      List.Forall₂ (Classified v) (loopsOfStmtList ss) lines
  | [] => ⟨[], by simp [WalkStmtList], by simp [loopsOfStmtList]⟩
  | s :: ss => by
    obtain ⟨l1, h1, f1⟩ := walkStmt_loops v s
    obtain ⟨l2, h2, f2⟩ := walkStmtList_loops v ss
    refine ⟨l1 ++ l2, by simp [WalkStmtList, walkSeq, h1, h2], ?_⟩
    simp only [loopsOfStmtList]
    exact List.rel_append f1 f2

theorem walkOptStmt_loops (v : visitor) :
    ∀ os, ∃ lines, WalkOptStmt v os = some lines ∧
      List.Forall₂ (Classified v) (loopsOfOptStmt os) lines
  | none => ⟨[], by simp [WalkOptStmt], by simp [loopsOfOptStmt]⟩
  | some s => by
    obtain ⟨l1, h1, f1⟩ := walkStmt_loops v s
    exact ⟨l1, by simpa only [WalkOptStmt] using h1, by simpa only [loopsOfOptStmt] using f1⟩

theorem walk_loops (v : visitor) :
    ∀ n, ∃ lines, Walk v n = some lines ∧
      List.Forall₂ (Classified v) (loopsOf n) lines
  | Node.Expr e => by
    obtain ⟨l1, h1, f1⟩ := walkExpr_loops v e
    exact ⟨l1, by simpa only [Walk] using h1, by simpa only [loopsOf] using f1⟩
  | Node.Stmt s => by
    obtain ⟨l1, h1, f1⟩ := walkStmt_loops v s
    exact ⟨l1, by simpa only [Walk] using h1, by simpa only [loopsOf] using f1⟩
  | Node.Other kind => by
    refine ⟨[], ?_, by simp [loopsOf]⟩
    rw [Walk]
    exact walkNode_quiet v _ _ [] (by simp [Visit]) rfl
  | Node.File Doc Name Decls => by
    obtain ⟨l1, h1, f1⟩ := walkOpt_loops v Doc
    obtain ⟨l2, h2, f2⟩ := walkExpr_loops v Name
    obtain ⟨l3, h3, f3⟩ := walkList_loops v Decls
    refine ⟨l1 ++ (l2 ++ l3), ?_, ?_⟩
    · rw [Walk]
      exact walkNode_quiet v _ _ _ (by simp [Visit]) (by simp [walkSeq, h1, h2, h3])
    · simp only [loopsOf]
      exact List.rel_append f1 (List.rel_append f2 f3)
  | Node.FuncDecl Doc Recv Name Typ Body => by
    obtain ⟨l1, h1, f1⟩ := walkOpt_loops v Doc
    obtain ⟨l2, h2, f2⟩ := walkOpt_loops v Recv
    obtain ⟨l3, h3, f3⟩ := walkExpr_loops v Name
    obtain ⟨l4, h4, f4⟩ := walkExpr_loops v Typ
    obtain ⟨l5, h5, f5⟩ := walkOptStmt_loops v Body
    refine ⟨l1 ++ (l2 ++ (l3 ++ (l4 ++ l5))), ?_, ?_⟩
    · rw [Walk]
      exact walkNode_quiet v _ _ _ (by simp [Visit])
        (by simp [walkSeq, h1, h2, h3, h4, h5])
    · simp only [loopsOf]
      exact List.rel_append f1 (List.rel_append f2 (List.rel_append f3
        (List.rel_append f4 f5)))
  | Node.Inner kind children => by
    obtain ⟨l1, h1, f1⟩ := walkList_loops v children
    refine ⟨l1, ?_, by simpa only [loopsOf] using f1⟩
    rw [Walk]
    exact walkNode_quiet v _ _ _ (by simp [Visit]) h1

theorem walkList_loops (v : visitor) :
    ∀ ns, ∃ lines, WalkList v ns = some lines ∧
      List.Forall₂ (Classified v) (loopsOfList ns) lines
  | [] => ⟨[], by simp [WalkList], by simp [loopsOfList]⟩
  | n :: ns => by
    obtain ⟨l1, h1, f1⟩ := walk_loops v n
    obtain ⟨l2, h2, f2⟩ := walkList_loops v ns
    refine ⟨l1 ++ l2, by simp [WalkList, walkSeq, h1, h2], ?_⟩
    simp only [loopsOfList]
    exact List.rel_append f1 f2

theorem walkOpt_loops (v : visitor) :
    ∀ o, ∃ lines, WalkOpt v o = some lines ∧
      List.Forall₂ (Classified v) (loopsOfOpt o) lines
  | none => ⟨[], by simp [WalkOpt], by simp [loopsOfOpt]⟩
  | some n => by
    obtain ⟨l1, h1, f1⟩ := walk_loops v n
    exact ⟨l1, by simpa only [WalkOpt] using h1, by simpa only [loopsOfOpt] using f1⟩

end

/-! ## The claims -/

/-- C1: a for-statement is reported as a counting loop (a line
`counting loop min ..., max ..., stride ...`) if and only if it has the
counting-loop shape `IsCountingShape`: the initializer is a one-target
one-value assignment to an identifier `x`, the condition is `x < _` or
`x <= _`, and the post-step is an inc/dec of `x` or a one-target one-value
`+=` / `-=` assignment to `x`.  Every other for-statement gets a rejection
label. -/
theorem counting_loop_iff_shape (v : visitor) (Init : Option Stmt) (Cond : Option Expr)
    (Post : Option Stmt) (Body : List Stmt) :
    ((∃ mn mx st, Visit v (some (Node.Stmt (Stmt.ForStmt Init Cond Post Body))) =
          some ⟨[countingLine mn mx st], some v⟩) ↔ IsCountingShape Init Cond Post) ∧
    (¬ IsCountingShape Init Cond Post →
      ∃ l, l ∈ rejectionLabels ∧
        Visit v (some (Node.Stmt (Stmt.ForStmt Init Cond Post Body))) =
          some ⟨[l], some v⟩) := by
  have hrej : ¬ IsCountingShape Init Cond Post →
      ∃ l, l ∈ rejectionLabels ∧
        Visit v (some (Node.Stmt (Stmt.ForStmt Init Cond Post Body))) =
          some ⟨[l], some v⟩ := by
    intro h
    obtain ⟨l, hl, hv⟩ := forStmt_reject v Init Cond Post h
    exact ⟨l, hl, by simpa [Visit] using hv⟩
  refine ⟨⟨?_, ?_⟩, hrej⟩
  · rintro ⟨mn, mx, st, hv⟩
    by_contra hns
    obtain ⟨l, hl, hv2⟩ := hrej hns
    rw [hv] at hv2
    simp only [Option.some.injEq, VisitResult.mk.injEq, List.cons.injEq, and_true] at hv2
    exact countingLine_not_label mn mx st l hl hv2
  · intro hs
    obtain ⟨mn, mx, st, _, _, _, hv⟩ := counting_shape_reported v Init Cond Post Body hs
    exact ⟨mn, mx, st, hv⟩

/-- C2: for every node, `Visit` returns normally; it writes exactly one line
when the node is a for-statement or a range-statement and no line when it is
any other node or nil; and every line written is either a rejection label or
a counting-loop line, never both. -/
theorem one_line_per_loop (v : visitor) (node : Option Node) :
    ∃ out, Visit v node = some ⟨out, some v⟩ ∧
      out.length = (if isLoopNode node then 1 else 0) ∧
      ∀ line, line ∈ out →
        (line ∈ rejectionLabels ∨ ∃ mn mx st, line = countingLine mn mx st) ∧
        ¬ (line ∈ rejectionLabels ∧ ∃ mn mx st, line = countingLine mn mx st) := by
  have hexcl : ∀ line : String,
      ¬ (line ∈ rejectionLabels ∧ ∃ mn mx st, line = countingLine mn mx st) := by
    rintro line ⟨hl, mn, mx, st, rfl⟩
    exact countingLine_not_label mn mx st _ hl rfl
  cases node with
  | none => exact ⟨[], by simp [Visit], by simp [isLoopNode], by simp⟩
  | some n =>
    cases n with
    | Expr e => exact ⟨[], by simp [Visit], by simp [isLoopNode], by simp⟩
    | Other kind => exact ⟨[], by simp [Visit], by simp [isLoopNode], by simp⟩
    | File Doc Name Decls => exact ⟨[], by simp [Visit], by simp [isLoopNode], by simp⟩
    | FuncDecl Doc Recv Name Typ Body => exact ⟨[], by simp [Visit], by simp [isLoopNode], by simp⟩
    | Inner kind children => exact ⟨[], by simp [Visit], by simp [isLoopNode], by simp⟩
    | Stmt s =>
      cases s with
      | RangeStmt Key Value Tok X Body =>
        refine ⟨["range"], by simp [Visit, Println], by simp [isLoopNode], ?_⟩
        intro line hline
        refine ⟨Or.inl ?_, hexcl line⟩
        simp only [List.mem_singleton] at hline
        subst hline
        simp [rejectionLabels]
      | ForStmt Init Cond Post Body =>
        by_cases hs : IsCountingShape Init Cond Post
        · obtain ⟨mn, mx, st, _, _, _, hv⟩ :=
            counting_shape_reported v Init Cond Post Body hs
          refine ⟨[countingLine mn mx st], hv, by simp [isLoopNode], ?_⟩
          intro line hline
          simp only [List.mem_singleton] at hline
          exact ⟨Or.inr ⟨mn, mx, st, hline⟩, hexcl line⟩
        · obtain ⟨l, hl, hv⟩ := forStmt_reject v Init Cond Post hs
          refine ⟨[l], by simpa [Visit] using hv, by simp [isLoopNode], ?_⟩
          intro line hline
          simp only [List.mem_singleton] at hline
          subst hline
          exact ⟨Or.inl hl, hexcl line⟩
      | _ => exact ⟨[], by simp [Visit], by simp [isLoopNode], by simp⟩


/-- C3: for every recognized counting loop (initializer `x tok r`, condition
`x < Y` or `x <= Y`, qualifying post-step on `x`), the line printed carries a
min kind `mn` that is `"0"` exactly when `r` is a basic literal whose text is
`"0"`, `"literal"` exactly when `r` is a basic literal with any other text,
and `"non-literal"` exactly when `r` is not a basic literal. -/
theorem min_kind_of_init_rhs (v : visitor) (x : String) (tok : Token) (r : Expr)
    (op : Token) (Y : Expr) (post : Stmt) (Body : List Stmt)
    (hop : op = Token.LSS ∨ op = Token.LEQ) (hpost : IsCountingPost x post) :
    ∃ mn mx st, mn ∈ minKinds ∧ mx ∈ maxKinds ∧ st ∈ strideKinds ∧
      Visit v (some (Node.Stmt (Stmt.ForStmt
          (some (Stmt.AssignStmt [Expr.Ident x] tok [r]))
          (some (Expr.BinaryExpr (Expr.Ident x) op Y)) (some post) Body))) =
        some ⟨[countingLine mn mx st], some v⟩ ∧
      (mn = "0" ↔ ∃ k, r = Expr.BasicLit k "0") ∧
      (mn = "literal" ↔ ∃ k val, r = Expr.BasicLit k val ∧ val ≠ "0") ∧
      (mn = "non-literal" ↔ ∀ k val, r ≠ Expr.BasicLit k val) := by
  obtain ⟨st, hmem, _, hv⟩ := forStmt_counting_kinds v x tok r op Y post hop hpost
  exact ⟨Visit.min r, Visit.max Y, st, min_mem_minKinds r, max_mem_maxKinds Y, hmem,
    by simpa [Visit] using hv, min_eq_zero_iff r, min_eq_literal_iff r,
    min_eq_nonliteral_iff r⟩

/-- Witness of C3 at `for i := 00; i < n; i++`: the min kind is `"literal"`
for the literal text `00`. -/
theorem min_kind_of_init_rhs_witness :
    (Token.LSS = Token.LSS ∨ Token.LSS = Token.LEQ) ∧
    IsCountingPost "i" (Stmt.IncDecStmt (Expr.Ident "i") Token.INC) ∧
    ∃ mn mx st, mn ∈ minKinds ∧ mx ∈ maxKinds ∧ st ∈ strideKinds ∧
      Visit ⟨⟩ (some (Node.Stmt (Stmt.ForStmt
          (some (Stmt.AssignStmt [Expr.Ident "i"] Token.DEFINE [Expr.BasicLit Token.INT "00"]))
          (some (Expr.BinaryExpr (Expr.Ident "i") Token.LSS (Expr.Ident "n")))
          (some (Stmt.IncDecStmt (Expr.Ident "i") Token.INC)) []))) =
        some ⟨[countingLine mn mx st], some ⟨⟩⟩ ∧
      (mn = "0" ↔ ∃ k, Expr.BasicLit Token.INT "00" = Expr.BasicLit k "0") ∧
      (mn = "literal" ↔
        ∃ k val, Expr.BasicLit Token.INT "00" = Expr.BasicLit k val ∧ val ≠ "0") ∧
      (mn = "non-literal" ↔ ∀ k val, Expr.BasicLit Token.INT "00" ≠ Expr.BasicLit k val) :=
  ⟨Or.inl rfl, Or.inl ⟨Token.INC, rfl⟩,
    min_kind_of_init_rhs ⟨⟩ "i" Token.DEFINE (Expr.BasicLit Token.INT "00") Token.LSS
      (Expr.Ident "n") (Stmt.IncDecStmt (Expr.Ident "i") Token.INC) [] (Or.inl rfl)
      (Or.inl ⟨Token.INC, rfl⟩)⟩


/-- C4: for every recognized counting loop, the line printed carries a stride
kind `st` that is `"1"` for an increment, `"literal"` for a decrement,
`"non-literal"` for a `+=` / `-=` whose right-hand side is not a basic
literal, `"1"` for `+= 1`, and `"literal"` for every other `+=` / `-=` with a
basic-literal right-hand side.  Hence `st` is `"1"` if and only if the
post-step is `x++` or `x += 1`, and never for a `-=` post-step. -/
theorem stride_kind_of_post (v : visitor) (x : String) (tok : Token) (r : Expr)
    (op : Token) (Y : Expr) (post : Stmt) (Body : List Stmt)
    (hop : op = Token.LSS ∨ op = Token.LEQ) (hpost : IsCountingPost x post) :
    ∃ mn mx st, mn ∈ minKinds ∧ mx ∈ maxKinds ∧ st ∈ strideKinds ∧
      Visit v (some (Node.Stmt (Stmt.ForStmt
          (some (Stmt.AssignStmt [Expr.Ident x] tok [r]))
          (some (Expr.BinaryExpr (Expr.Ident x) op Y)) (some post) Body))) =
        some ⟨[countingLine mn mx st], some v⟩ ∧
      (∀ X, post = Stmt.IncDecStmt X Token.INC → st = "1") ∧
      (∀ X, post = Stmt.IncDecStmt X Token.DEC → st = "literal") ∧
      (∀ L t R0, post = Stmt.AssignStmt L t [R0] →
        (∀ k val, R0 ≠ Expr.BasicLit k val) → st = "non-literal") ∧
      (∀ L k, post = Stmt.AssignStmt L Token.ADD_ASSIGN [Expr.BasicLit k "1"] → st = "1") ∧
      (∀ L t k val, post = Stmt.AssignStmt L t [Expr.BasicLit k val] →
        ¬ (t = Token.ADD_ASSIGN ∧ val = "1") → st = "literal") ∧
      (st = "1" ↔
        post = Stmt.IncDecStmt (Expr.Ident x) Token.INC ∨
        ∃ k, post = Stmt.AssignStmt [Expr.Ident x] Token.ADD_ASSIGN [Expr.BasicLit k "1"]) ∧
      (∀ L R, post = Stmt.AssignStmt L Token.SUB_ASSIGN R → st ≠ "1") := by
  obtain ⟨st, hmem, hst, hv⟩ := forStmt_counting_kinds v x tok r op Y post hop hpost
  refine ⟨Visit.min r, Visit.max Y, st, min_mem_minKinds r, max_mem_maxKinds Y, hmem,
    by simpa [Visit] using hv, ?_⟩
  rcases hpost with ⟨t, rfl⟩ | ⟨t, R0, rfl, ht⟩
  · by_cases hinc : t = Token.INC
    · subst hinc
      simp [Visit.stride] at hst
      subst hst
      simp
    · simp [Visit.stride, hinc] at hst
      subst hst
      simp [hinc]
  · cases R0 with
    | BasicLit Kind Value =>
      by_cases hc : Value = "1" ∧ t = Token.ADD_ASSIGN
      · obtain ⟨rfl, rfl⟩ := hc
        simp [Visit.stride] at hst
        subst hst
        simp
        rintro L t k val - rfl - rfl
        exact ⟨rfl, rfl⟩
      · simp [Visit.stride, hc] at hst
        subst hst
        simp
        intro h1 h2
        exact hc ⟨h2, h1⟩
    | _ =>
      simp [Visit.stride] at hst
      subst hst
      simp


/-- Witness of C4 at `for i := 0; i < n; i -= 1`. -/
theorem stride_kind_of_post_witness :
    (Token.LSS = Token.LSS ∨ Token.LSS = Token.LEQ) ∧
    IsCountingPost "i"
      (Stmt.AssignStmt [Expr.Ident "i"] Token.SUB_ASSIGN [Expr.BasicLit Token.INT "1"]) ∧
    ∃ mn mx st, mn ∈ minKinds ∧ mx ∈ maxKinds ∧ st ∈ strideKinds ∧
      Visit ⟨⟩ (some (Node.Stmt (Stmt.ForStmt
          (some (Stmt.AssignStmt [Expr.Ident "i"] Token.DEFINE [Expr.BasicLit Token.INT "0"]))
          (some (Expr.BinaryExpr (Expr.Ident "i") Token.LSS (Expr.Ident "n")))
          (some (Stmt.AssignStmt [Expr.Ident "i"] Token.SUB_ASSIGN
            [Expr.BasicLit Token.INT "1"])) []))) =
        some ⟨[countingLine mn mx st], some ⟨⟩⟩ ∧
      (∀ X, Stmt.AssignStmt [Expr.Ident "i"] Token.SUB_ASSIGN [Expr.BasicLit Token.INT "1"] =
        Stmt.IncDecStmt X Token.INC → st = "1") ∧
      (∀ X, Stmt.AssignStmt [Expr.Ident "i"] Token.SUB_ASSIGN [Expr.BasicLit Token.INT "1"] =
        Stmt.IncDecStmt X Token.DEC → st = "literal") ∧
      (∀ L t R0,
        Stmt.AssignStmt [Expr.Ident "i"] Token.SUB_ASSIGN [Expr.BasicLit Token.INT "1"] =
          Stmt.AssignStmt L t [R0] →
        (∀ k val, R0 ≠ Expr.BasicLit k val) → st = "non-literal") ∧
      (∀ L k,
        Stmt.AssignStmt [Expr.Ident "i"] Token.SUB_ASSIGN [Expr.BasicLit Token.INT "1"] =
          Stmt.AssignStmt L Token.ADD_ASSIGN [Expr.BasicLit k "1"] → st = "1") ∧
      (∀ L t k val,
        Stmt.AssignStmt [Expr.Ident "i"] Token.SUB_ASSIGN [Expr.BasicLit Token.INT "1"] =
          Stmt.AssignStmt L t [Expr.BasicLit k val] →
        ¬ (t = Token.ADD_ASSIGN ∧ val = "1") → st = "literal") ∧
      (st = "1" ↔
        Stmt.AssignStmt [Expr.Ident "i"] Token.SUB_ASSIGN [Expr.BasicLit Token.INT "1"] =
          Stmt.IncDecStmt (Expr.Ident "i") Token.INC ∨
        ∃ k, Stmt.AssignStmt [Expr.Ident "i"] Token.SUB_ASSIGN [Expr.BasicLit Token.INT "1"] =
          Stmt.AssignStmt [Expr.Ident "i"] Token.ADD_ASSIGN [Expr.BasicLit k "1"]) ∧
      (∀ L R,
        Stmt.AssignStmt [Expr.Ident "i"] Token.SUB_ASSIGN [Expr.BasicLit Token.INT "1"] =
          Stmt.AssignStmt L Token.SUB_ASSIGN R → st ≠ "1") :=
  ⟨Or.inl rfl, Or.inr ⟨Token.SUB_ASSIGN, Expr.BasicLit Token.INT "1", rfl, Or.inr rfl⟩,
    stride_kind_of_post ⟨⟩ "i" Token.DEFINE (Expr.BasicLit Token.INT "0") Token.LSS
      (Expr.Ident "n")
      (Stmt.AssignStmt [Expr.Ident "i"] Token.SUB_ASSIGN [Expr.BasicLit Token.INT "1"]) []
      (Or.inl rfl)
      (Or.inr ⟨Token.SUB_ASSIGN, Expr.BasicLit Token.INT "1", rfl, Or.inr rfl⟩)⟩

/-- C5: for every recognized counting loop, the line printed carries a max
kind `mx` that is `"literal"` if and only if the condition's right operand `Y`
is a basic literal and `"non-literal"` otherwise; the same line is printed
whether the comparison operator is `<` or `<=`. -/
theorem max_kind_of_cond_rhs (v : visitor) (x : String) (tok : Token) (r : Expr)
    (Y : Expr) (post : Stmt) (Body : List Stmt) (hpost : IsCountingPost x post) :
    ∃ mn mx st, mn ∈ minKinds ∧ mx ∈ maxKinds ∧ st ∈ strideKinds ∧
      Visit v (some (Node.Stmt (Stmt.ForStmt
          (some (Stmt.AssignStmt [Expr.Ident x] tok [r]))
          (some (Expr.BinaryExpr (Expr.Ident x) Token.LSS Y)) (some post) Body))) =
        some ⟨[countingLine mn mx st], some v⟩ ∧
      Visit v (some (Node.Stmt (Stmt.ForStmt
          (some (Stmt.AssignStmt [Expr.Ident x] tok [r]))
          (some (Expr.BinaryExpr (Expr.Ident x) Token.LEQ Y)) (some post) Body))) =
        some ⟨[countingLine mn mx st], some v⟩ ∧
      (mx = "literal" ↔ ∃ k val, Y = Expr.BasicLit k val) ∧
      (mx = "non-literal" ↔ ∀ k val, Y ≠ Expr.BasicLit k val) := by
  obtain ⟨st, hmem, hst⟩ := stride_of_countingPost x post hpost
  have h1 := forStmt_counting v x tok r Token.LSS Y post st (Or.inl rfl) hpost hst
  have h2 := forStmt_counting v x tok r Token.LEQ Y post st (Or.inr rfl) hpost hst
  exact ⟨Visit.min r, Visit.max Y, st, min_mem_minKinds r, max_mem_maxKinds Y, hmem,
    by simpa [Visit] using h1, by simpa [Visit] using h2, max_eq_literal_iff Y,
    max_eq_nonliteral_iff Y⟩

/-- Witness of C5 at `for i := n; i < m; i += 2` and `for i := n; i <= m; i += 2`. -/
theorem max_kind_of_cond_rhs_witness :
    IsCountingPost "i"
      (Stmt.AssignStmt [Expr.Ident "i"] Token.ADD_ASSIGN [Expr.BasicLit Token.INT "2"]) ∧
    ∃ mn mx st, mn ∈ minKinds ∧ mx ∈ maxKinds ∧ st ∈ strideKinds ∧
      Visit ⟨⟩ (some (Node.Stmt (Stmt.ForStmt
          (some (Stmt.AssignStmt [Expr.Ident "i"] Token.DEFINE [Expr.Ident "n"]))
          (some (Expr.BinaryExpr (Expr.Ident "i") Token.LSS (Expr.Ident "m")))
          (some (Stmt.AssignStmt [Expr.Ident "i"] Token.ADD_ASSIGN
            [Expr.BasicLit Token.INT "2"])) []))) =
        some ⟨[countingLine mn mx st], some ⟨⟩⟩ ∧
      Visit ⟨⟩ (some (Node.Stmt (Stmt.ForStmt
          (some (Stmt.AssignStmt [Expr.Ident "i"] Token.DEFINE [Expr.Ident "n"]))
          (some (Expr.BinaryExpr (Expr.Ident "i") Token.LEQ (Expr.Ident "m")))
          (some (Stmt.AssignStmt [Expr.Ident "i"] Token.ADD_ASSIGN
            [Expr.BasicLit Token.INT "2"])) []))) =
        some ⟨[countingLine mn mx st], some ⟨⟩⟩ ∧
      (mx = "literal" ↔ ∃ k val, Expr.Ident "m" = Expr.BasicLit k val) ∧
      (mx = "non-literal" ↔ ∀ k val, Expr.Ident "m" ≠ Expr.BasicLit k val) :=
  ⟨Or.inr ⟨Token.ADD_ASSIGN, Expr.BasicLit Token.INT "2", rfl, Or.inl rfl⟩,
    max_kind_of_cond_rhs ⟨⟩ "i" Token.DEFINE (Expr.Ident "n") (Expr.Ident "m")
      (Stmt.AssignStmt [Expr.Ident "i"] Token.ADD_ASSIGN [Expr.BasicLit Token.INT "2"]) []
      (Or.inr ⟨Token.ADD_ASSIGN, Expr.BasicLit Token.INT "2", rfl, Or.inl rfl⟩)⟩

/-- C6: for every node on which `Visit` prints a counting-loop line, the line
is `countingLine mn mx st` with `mn` one of `"0"`, `"literal"`,
`"non-literal"`, `mx` one of `"literal"`, `"non-literal"` and `st` one of
`"1"`, `"literal"`, `"non-literal"`; `mn` is never `"1"`, `st` is never `"0"`,
none of the three is empty, and the three kinds are the only ones from these
sets that give the line printed. -/
theorem descriptor_kinds (v : visitor) (node : Option Node) (a b c : String)
    (h : Visit v node = some ⟨[countingLine a b c], some v⟩) :
    ∃ mn mx st, mn ∈ minKinds ∧ mx ∈ maxKinds ∧ st ∈ strideKinds ∧
      Visit v node = some ⟨[countingLine mn mx st], some v⟩ ∧
      mn ≠ "1" ∧ st ≠ "0" ∧ mn ≠ "" ∧ mx ≠ "" ∧ st ≠ "" ∧
      ∀ mn2 mx2 st2, mn2 ∈ minKinds → mx2 ∈ maxKinds → st2 ∈ strideKinds →
        countingLine mn2 mx2 st2 = countingLine mn mx st →
        mn2 = mn ∧ mx2 = mx ∧ st2 = st := by
  obtain ⟨Init, Cond, Post, Body, rfl, hs⟩ := recognized_shape v node a b c h
  obtain ⟨mn, mx, st, hmn, hmx, hst, hv⟩ := counting_shape_reported v Init Cond Post Body hs
  refine ⟨mn, mx, st, hmn, hmx, hst, hv, ?_, ?_, ?_, ?_, ?_, ?_⟩
  · rintro rfl; simp [minKinds] at hmn
  · rintro rfl; simp [strideKinds] at hst
  · rintro rfl; simp [minKinds] at hmn
  · rintro rfl; simp [maxKinds] at hmx
  · rintro rfl; simp [strideKinds] at hst
  · intro mn2 mx2 st2 h1 h2 h3 he
    exact countingLine_injective mn2 h1 mx2 h2 st2 h3 mn hmn mx hmx st hst he

/-- Witness of C6 at `for i := 5; i <= bound; i--`. -/
theorem descriptor_kinds_witness :
    Visit ⟨⟩ exDecrement =
      some ⟨[countingLine "literal" "non-literal" "literal"], some ⟨⟩⟩ ∧
    ∃ mn mx st, mn ∈ minKinds ∧ mx ∈ maxKinds ∧ st ∈ strideKinds ∧
      Visit ⟨⟩ exDecrement = some ⟨[countingLine mn mx st], some ⟨⟩⟩ ∧
      mn ≠ "1" ∧ st ≠ "0" ∧ mn ≠ "" ∧ mx ≠ "" ∧ st ≠ "" ∧
      ∀ mn2 mx2 st2, mn2 ∈ minKinds → mx2 ∈ maxKinds → st2 ∈ strideKinds →
        countingLine mn2 mx2 st2 = countingLine mn mx st →
        mn2 = mn ∧ mx2 = mx ∧ st2 = st :=
  ⟨by decide, descriptor_kinds ⟨⟩ exDecrement "literal" "non-literal" "literal" (by decide)⟩


/-- C7, as stated, fails: `for x != y { }` has a condition with operator `!=`
and is labelled `cond only`, not `cond not < or <=`. -/
theorem cond_neq_cond_only :
    Visit ⟨⟩ exCondOnlyNeq = some ⟨["cond only"], some ⟨⟩⟩ ∧
    Visit ⟨⟩ exCondOnlyNeq ≠ some ⟨["cond not < or <="], some ⟨⟩⟩ := by
  decide

/-- C7, amended: for every for-statement with initializer and post-step both
present whose condition is a binary expression with operator `==`, `>`, `>=`
or `!=`, `Visit` prints `cond not < or <=`. -/
theorem cond_other_comparison (v : visitor) (init post : Stmt) (X : Expr) (op : Token)
    (Y : Expr) (Body : List Stmt)
    (hop : op = Token.EQL ∨ op = Token.GTR ∨ op = Token.GEQ ∨ op = Token.NEQ) :
    Visit v (some (Node.Stmt (Stmt.ForStmt (some init)
        (some (Expr.BinaryExpr X op Y)) (some post) Body))) =
      some ⟨["cond not < or <="], some v⟩ := by
  rcases hop with rfl | rfl | rfl | rfl <;> simp [Visit, Visit.forStmt, Println]

/-- Witness of C7 (amended) at `for i := 0; i != 10; i++`. -/
theorem cond_other_comparison_witness :
    (Token.NEQ = Token.EQL ∨ Token.NEQ = Token.GTR ∨ Token.NEQ = Token.GEQ ∨
      Token.NEQ = Token.NEQ) ∧
    Visit ⟨⟩ (some (Node.Stmt (Stmt.ForStmt
        (some (Stmt.AssignStmt [Expr.Ident "i"] Token.DEFINE [Expr.BasicLit Token.INT "0"]))
        (some (Expr.BinaryExpr (Expr.Ident "i") Token.NEQ (Expr.BasicLit Token.INT "10")))
        (some (Stmt.IncDecStmt (Expr.Ident "i") Token.INC)) []))) =
      some ⟨["cond not < or <="], some ⟨⟩⟩ :=
  ⟨by decide,
    cond_other_comparison ⟨⟩
      (Stmt.AssignStmt [Expr.Ident "i"] Token.DEFINE [Expr.BasicLit Token.INT "0"])
      (Stmt.IncDecStmt (Expr.Ident "i") Token.INC) (Expr.Ident "i") Token.NEQ
      (Expr.BasicLit Token.INT "10") [] (by decide)⟩

/-- C8: for every for-statement with initializer, condition and post-step all
present whose initializer is a one-target one-value assignment to an
identifier `a` and whose condition is `b < _` or `b <= _` for an identifier
`b` with `a ≠ b`, `Visit` prints `init lhs != cond lhs`, whatever the
post-step, the initial value and the bound are. -/
theorem init_cond_mismatch (v : visitor) (a b : String) (tok : Token) (r : Expr)
    (op : Token) (Y : Expr) (post : Stmt) (Body : List Stmt)
    (hop : op = Token.LSS ∨ op = Token.LEQ) (hab : a ≠ b) :
    Visit v (some (Node.Stmt (Stmt.ForStmt
        (some (Stmt.AssignStmt [Expr.Ident a] tok [r]))
        (some (Expr.BinaryExpr (Expr.Ident b) op Y)) (some post) Body))) =
      some ⟨["init lhs != cond lhs"], some v⟩ := by
  rcases hop with rfl | rfl <;>
    simp [Visit, Visit.forStmt, Visit.checkInit, Println, hab]

/-- Witness of C8 at `for j := 0; i < 10; i++`. -/
theorem init_cond_mismatch_witness :
    (Token.LSS = Token.LSS ∨ Token.LSS = Token.LEQ) ∧ "j" ≠ "i" ∧
    Visit ⟨⟩ (some (Node.Stmt (Stmt.ForStmt
        (some (Stmt.AssignStmt [Expr.Ident "j"] Token.DEFINE [Expr.BasicLit Token.INT "0"]))
        (some (Expr.BinaryExpr (Expr.Ident "i") Token.LSS (Expr.BasicLit Token.INT "10")))
        (some (Stmt.IncDecStmt (Expr.Ident "i") Token.INC)) []))) =
      some ⟨["init lhs != cond lhs"], some ⟨⟩⟩ :=
  ⟨by decide, by decide,
    init_cond_mismatch ⟨⟩ "j" "i" Token.DEFINE (Expr.BasicLit Token.INT "0") Token.LSS
      (Expr.BasicLit Token.INT "10") (Stmt.IncDecStmt (Expr.Ident "i") Token.INC) []
      (by decide) (by decide)⟩

/-- C9, as stated, fails: `for i := 0; i < 10; j++` and
`for i := 0; i < 10; j += 1` both pass the initializer and condition checks
and both have a post-step on `j`, yet `Visit` prints two different labels for
them. -/
theorem init_post_mismatch_two_labels :
    Visit ⟨⟩ exPostIncOther = some ⟨["init lhs != post incdec lhs"], some ⟨⟩⟩ ∧
    Visit ⟨⟩ exPostAssignOther = some ⟨["init lhs != post assign lhs"], some ⟨⟩⟩ ∧
    Visit ⟨⟩ exPostIncOther ≠ Visit ⟨⟩ exPostAssignOther := by
  decide

/-- C9, amended: for every loop that passes the initializer and condition
checks on the identifier `x`, a post-step on an identifier `y` with `y ≠ x` is
labelled `init lhs != post incdec lhs` when it is an increment/decrement and
`init lhs != post assign lhs` when it is a one-target one-value assignment
(with any operator). -/
theorem init_post_mismatch (v : visitor) (x y : String) (tok : Token) (r : Expr)
    (op : Token) (Y : Expr) (Body : List Stmt)
    (hop : op = Token.LSS ∨ op = Token.LEQ) (hxy : y ≠ x) :
    (∀ t, Visit v (some (Node.Stmt (Stmt.ForStmt
        (some (Stmt.AssignStmt [Expr.Ident x] tok [r]))
        (some (Expr.BinaryExpr (Expr.Ident x) op Y))
        (some (Stmt.IncDecStmt (Expr.Ident y) t)) Body))) =
      some ⟨["init lhs != post incdec lhs"], some v⟩) ∧
    (∀ t r2, Visit v (some (Node.Stmt (Stmt.ForStmt
        (some (Stmt.AssignStmt [Expr.Ident x] tok [r]))
        (some (Expr.BinaryExpr (Expr.Ident x) op Y))
        (some (Stmt.AssignStmt [Expr.Ident y] t [r2])) Body))) =
      some ⟨["init lhs != post assign lhs"], some v⟩) := by
  rcases hop with rfl | rfl <;>
    simp [Visit, Visit.forStmt, Visit.checkInit, Visit.checkPost, Println, hxy]


/-- Witness of C9 (amended) at the loops `for i := 0; i < 10; j ...` with a
post-step on `j`. -/
theorem init_post_mismatch_witness :
    (Token.LSS = Token.LSS ∨ Token.LSS = Token.LEQ) ∧ "j" ≠ "i" ∧
    (∀ t, Visit ⟨⟩ (some (Node.Stmt (Stmt.ForStmt
        (some (Stmt.AssignStmt [Expr.Ident "i"] Token.DEFINE [Expr.BasicLit Token.INT "0"]))
        (some (Expr.BinaryExpr (Expr.Ident "i") Token.LSS (Expr.BasicLit Token.INT "10")))
        (some (Stmt.IncDecStmt (Expr.Ident "j") t)) []))) =
      some ⟨["init lhs != post incdec lhs"], some ⟨⟩⟩) ∧
    (∀ t r2, Visit ⟨⟩ (some (Node.Stmt (Stmt.ForStmt
        (some (Stmt.AssignStmt [Expr.Ident "i"] Token.DEFINE [Expr.BasicLit Token.INT "0"]))
        (some (Expr.BinaryExpr (Expr.Ident "i") Token.LSS (Expr.BasicLit Token.INT "10")))
        (some (Stmt.AssignStmt [Expr.Ident "j"] t [r2])) []))) =
      some ⟨["init lhs != post assign lhs"], some ⟨⟩⟩) :=
  ⟨by decide, by decide,
    init_post_mismatch ⟨⟩ "i" "j" Token.DEFINE (Expr.BasicLit Token.INT "0") Token.LSS
      (Expr.BasicLit Token.INT "10") [] (by decide) (by decide)⟩

/-- C10, as stated, fails: `for f(); i < 10; i++` and
`for i, j := 0, 1; i < 10; i++` both have an initializer that is not a
one-target one-value assignment, yet `Visit` prints two different labels for
them. -/
theorem init_not_simple_two_labels :
    Visit ⟨⟩ exInitNotAssign = some ⟨["init not i := n"], some ⟨⟩⟩ ∧
    Visit ⟨⟩ exInitMulti = some ⟨["init multiple values"], some ⟨⟩⟩ ∧
    Visit ⟨⟩ exInitNotAssign ≠ Visit ⟨⟩ exInitMulti := by
  decide

/-- C10, amended: for every loop with initializer and post-step present whose
condition is `c < _` or `c <= _` for an identifier `c`, `Visit` prints
`init not i := n` when the initializer is not an assignment statement, and
`init multiple values` when it is an assignment whose number of targets or
number of values is not one. -/
theorem init_not_simple_assign (v : visitor) (c : String) (op : Token)
    (Y : Expr) (post : Stmt) (Body : List Stmt)
    (hop : op = Token.LSS ∨ op = Token.LEQ) :
    (∀ init, (∀ L t R, init ≠ Stmt.AssignStmt L t R) →
      Visit v (some (Node.Stmt (Stmt.ForStmt (some init)
          (some (Expr.BinaryExpr (Expr.Ident c) op Y)) (some post) Body))) =
        some ⟨["init not i := n"], some v⟩) ∧
    (∀ L t R, (L.length ≠ 1 ∨ R.length ≠ 1) →
      Visit v (some (Node.Stmt (Stmt.ForStmt (some (Stmt.AssignStmt L t R))
          (some (Expr.BinaryExpr (Expr.Ident c) op Y)) (some post) Body))) =
        some ⟨["init multiple values"], some v⟩) := by
  have hop2 : ¬ (op ≠ Token.LSS ∧ op ≠ Token.LEQ) := by
    rintro ⟨h1, h2⟩
    exact hop.elim h1 h2
  constructor
  · intro init hna
    cases init with
    | AssignStmt L t R => exact absurd rfl (hna L t R)
    | _ => simp [Visit, Visit.forStmt, Visit.checkInit, Println, hop2]
  · intro L t R hlen
    simp [Visit, Visit.forStmt, Visit.checkInit, Println, hop2, hlen]

/-- Witness of C10 (amended) at `for f(); i <= n; i++` and
`for i, j := 0, 1; i <= n; i++`. -/
theorem init_not_simple_assign_witness :
    (Token.LEQ = Token.LSS ∨ Token.LEQ = Token.LEQ) ∧
    Visit ⟨⟩ (some (Node.Stmt (Stmt.ForStmt
        (some (Stmt.ExprStmt (Expr.CallExpr (Expr.Ident "f") [])))
        (some (Expr.BinaryExpr (Expr.Ident "i") Token.LEQ (Expr.Ident "n")))
        (some (Stmt.IncDecStmt (Expr.Ident "i") Token.INC)) []))) =
      some ⟨["init not i := n"], some ⟨⟩⟩ ∧
    Visit ⟨⟩ (some (Node.Stmt (Stmt.ForStmt
        (some (Stmt.AssignStmt [Expr.Ident "i", Expr.Ident "j"] Token.DEFINE
          [Expr.BasicLit Token.INT "0", Expr.BasicLit Token.INT "1"]))
        (some (Expr.BinaryExpr (Expr.Ident "i") Token.LEQ (Expr.Ident "n")))
        (some (Stmt.IncDecStmt (Expr.Ident "i") Token.INC)) []))) =
      some ⟨["init multiple values"], some ⟨⟩⟩ :=
  ⟨by decide,
    (init_not_simple_assign ⟨⟩ "i" Token.LEQ (Expr.Ident "n")
      (Stmt.IncDecStmt (Expr.Ident "i") Token.INC) [] (by decide)).1
      (Stmt.ExprStmt (Expr.CallExpr (Expr.Ident "f") [])) (fun _ _ _ h => Stmt.noConfusion h),
    (init_not_simple_assign ⟨⟩ "i" Token.LEQ (Expr.Ident "n")
      (Stmt.IncDecStmt (Expr.Ident "i") Token.INC) [] (by decide)).2
      [Expr.Ident "i", Expr.Ident "j"] Token.DEFINE
      [Expr.BasicLit Token.INT "0", Expr.BasicLit Token.INT "1"] (by decide)⟩

/-- C11: for every loop that passes the initializer and condition checks on
the identifier `x` and whose post-step is a one-target one-value assignment
to `x`, `Visit` prints `post assign not += or -= ...` if and only if the
assignment operator is neither `+=` nor `-=`.  In particular a post-step
`x = e` (such as `i = i - 1` or `i = i + 1`) gets that label and no
counting-loop line. -/
theorem post_assign_bad_operator (v : visitor) (x : String) (tok : Token) (r : Expr)
    (op : Token) (Y : Expr) (Body : List Stmt) (hop : op = Token.LSS ∨ op = Token.LEQ) :
    (∀ t r2,
      Visit v (some (Node.Stmt (Stmt.ForStmt
          (some (Stmt.AssignStmt [Expr.Ident x] tok [r]))
          (some (Expr.BinaryExpr (Expr.Ident x) op Y))
          (some (Stmt.AssignStmt [Expr.Ident x] t [r2])) Body))) =
        some ⟨["post assign not += or -= (but might be i = i - 1, oh well)"], some v⟩ ↔
      (t ≠ Token.ADD_ASSIGN ∧ t ≠ Token.SUB_ASSIGN)) ∧
    (∀ e,
      Visit v (some (Node.Stmt (Stmt.ForStmt
          (some (Stmt.AssignStmt [Expr.Ident x] tok [r]))
          (some (Expr.BinaryExpr (Expr.Ident x) op Y))
          (some (Stmt.AssignStmt [Expr.Ident x] Token.ASSIGN [e])) Body))) =
        some ⟨["post assign not += or -= (but might be i = i - 1, oh well)"], some v⟩ ∧
      ∀ mn mx st,
        Visit v (some (Node.Stmt (Stmt.ForStmt
            (some (Stmt.AssignStmt [Expr.Ident x] tok [r]))
            (some (Expr.BinaryExpr (Expr.Ident x) op Y))
            (some (Stmt.AssignStmt [Expr.Ident x] Token.ASSIGN [e])) Body))) ≠
          some ⟨[countingLine mn mx st], some v⟩) := by
  have hop2 : ¬ (op ≠ Token.LSS ∧ op ≠ Token.LEQ) := by
    rintro ⟨h1, h2⟩
    exact hop.elim h1 h2
  have hbad : ∀ t r2, (t ≠ Token.ADD_ASSIGN ∧ t ≠ Token.SUB_ASSIGN) →
      Visit v (some (Node.Stmt (Stmt.ForStmt
          (some (Stmt.AssignStmt [Expr.Ident x] tok [r]))
          (some (Expr.BinaryExpr (Expr.Ident x) op Y))
          (some (Stmt.AssignStmt [Expr.Ident x] t [r2])) Body))) =
        some ⟨["post assign not += or -= (but might be i = i - 1, oh well)"], some v⟩ := by
    intro t r2 ht
    simp [Visit, Visit.forStmt, Visit.checkInit, Visit.checkPost, Println, hop2, ht]
  constructor
  · intro t r2
    constructor
    · intro hv
      by_contra hgood
      have ht : t = Token.ADD_ASSIGN ∨ t = Token.SUB_ASSIGN := by
        by_cases h1 : t = Token.ADD_ASSIGN
        · exact Or.inl h1
        · by_cases h2 : t = Token.SUB_ASSIGN
          · exact Or.inr h2
          · exact absurd ⟨h1, h2⟩ hgood
      obtain ⟨st, _, _, hc⟩ := forStmt_counting_kinds v x tok r op Y
        (Stmt.AssignStmt [Expr.Ident x] t [r2]) hop (Or.inr ⟨t, r2, rfl, ht⟩)
      simp only [Visit] at hv
      rw [hv] at hc
      simp only [Option.some.injEq, VisitResult.mk.injEq, List.cons.injEq, and_true] at hc
      exact countingLine_not_label _ _ _ _ (by simp [rejectionLabels]) hc.symm
    · exact hbad t r2
  · intro e
    have hv := hbad Token.ASSIGN e (by decide)
    refine ⟨hv, ?_⟩
    intro mn mx st hc
    rw [hv] at hc
    simp only [Option.some.injEq, VisitResult.mk.injEq, List.cons.injEq, and_true] at hc
    exact countingLine_not_label _ _ _ _ (by simp [rejectionLabels]) hc.symm

/-- Witness of C11 at `for i := 0; i < n; i ...` with an assignment to `i` as
post-step. -/
theorem post_assign_bad_operator_witness :
    (Token.LSS = Token.LSS ∨ Token.LSS = Token.LEQ) ∧
    Visit ⟨⟩ (some (Node.Stmt (Stmt.ForStmt
        (some (Stmt.AssignStmt [Expr.Ident "i"] Token.DEFINE [Expr.BasicLit Token.INT "0"]))
        (some (Expr.BinaryExpr (Expr.Ident "i") Token.LSS (Expr.Ident "n")))
        (some (Stmt.AssignStmt [Expr.Ident "i"] Token.ASSIGN
          [Expr.BinaryExpr (Expr.Ident "i") Token.SUB (Expr.BasicLit Token.INT "1")]))
        []))) =
      some ⟨["post assign not += or -= (but might be i = i - 1, oh well)"], some ⟨⟩⟩ :=
  ⟨by decide,
    ((post_assign_bad_operator ⟨⟩ "i" Token.DEFINE (Expr.BasicLit Token.INT "0") Token.LSS
      (Expr.Ident "n") [] (by decide)).2
      (Expr.BinaryExpr (Expr.Ident "i") Token.SUB (Expr.BasicLit Token.INT "1"))).1⟩

/-- C12: a for-statement is labelled `cond only` if and only if its
initializer and post-step are both absent and its condition is present; the
shape of the condition plays no part. -/
theorem cond_only_iff (v : visitor) (Init : Option Stmt) (Cond : Option Expr)
    (Post : Option Stmt) (Body : List Stmt) :
    Visit v (some (Node.Stmt (Stmt.ForStmt Init Cond Post Body))) =
        some ⟨["cond only"], some v⟩ ↔
      (Init = none ∧ Post = none ∧ ∃ cond, Cond = some cond) := by
  cases Init with
  | none =>
    cases Post with
    | none => cases Cond <;> simp [Visit, Visit.forStmt, Println]
    | some post => cases Cond <;> simp [Visit, Visit.forStmt, Println]
  | some init =>
    cases Post with
    | none => cases Cond <;> simp [Visit, Visit.forStmt, Println]
    | some post =>
      have hne := forStmt_present_not_absent v init Cond post "cond only"
        (by simp [absentLabels])
      simp only [Visit]
      constructor
      · intro h; exact absurd h hne
      · rintro ⟨h, -⟩; cases h

/-- C13: a for-statement is labelled `bare for` if and only if its
initializer, condition and post-step are all three absent. -/
theorem bare_for_iff (v : visitor) (Init : Option Stmt) (Cond : Option Expr)
    (Post : Option Stmt) (Body : List Stmt) :
    Visit v (some (Node.Stmt (Stmt.ForStmt Init Cond Post Body))) =
        some ⟨["bare for"], some v⟩ ↔
      (Init = none ∧ Cond = none ∧ Post = none) := by
  cases Init with
  | none =>
    cases Post with
    | none => cases Cond <;> simp [Visit, Visit.forStmt, Println]
    | some post => cases Cond <;> simp [Visit, Visit.forStmt, Println]
  | some init =>
    cases Post with
    | none => cases Cond <;> simp [Visit, Visit.forStmt, Println]
    | some post =>
      have hne := forStmt_present_not_absent v init Cond post "bare for"
        (by simp [absentLabels])
      simp only [Visit]
      constructor
      · intro h; exact absurd h hne
      · rintro ⟨h, -⟩; cases h

/-- C14: every for-statement whose initializer is absent and whose post-step
is present is labelled `missing init`, whether its condition is present or
absent; and no for-statement with an initializer present is labelled
`missing init`. -/
theorem missing_init_label (v : visitor) (Body : List Stmt) :
    (∀ Cond post,
      Visit v (some (Node.Stmt (Stmt.ForStmt none Cond (some post) Body))) =
        some ⟨["missing init"], some v⟩) ∧
    (∀ init Cond Post,
      Visit v (some (Node.Stmt (Stmt.ForStmt (some init) Cond Post Body))) ≠
        some ⟨["missing init"], some v⟩) := by
  constructor
  · intro Cond post
    cases Cond <;> simp [Visit, Visit.forStmt, Println]
  · intro init Cond Post
    cases Post with
    | none => cases Cond <;> simp [Visit, Visit.forStmt, Println]
    | some post =>
      simp only [Visit]
      exact forStmt_present_not_absent v init Cond post "missing init"
        (by simp [absentLabels])

/-- C15: every for-statement whose post-step is absent and whose initializer
is present is labelled `missing post`, whatever its initializer and condition
are; and no for-statement with a post-step present is labelled
`missing post`. -/
theorem missing_post_label (v : visitor) (Body : List Stmt) :
    (∀ init Cond,
      Visit v (some (Node.Stmt (Stmt.ForStmt (some init) Cond none Body))) =
        some ⟨["missing post"], some v⟩) ∧
    (∀ Init Cond post,
      Visit v (some (Node.Stmt (Stmt.ForStmt Init Cond (some post) Body))) ≠
        some ⟨["missing post"], some v⟩) := by
  constructor
  · intro init Cond
    cases Cond <;> simp [Visit, Visit.forStmt, Println]
  · intro Init Cond post
    cases Init with
    | none => cases Cond <;> simp [Visit, Visit.forStmt, Println]
    | some init =>
      simp only [Visit]
      exact forStmt_present_not_absent v init Cond post "missing post"
        (by simp [absentLabels])

/-- C20: for every for-statement with initializer and post-step both present,
`Visit` prints `cond not < or <=` if and only if the condition is absent or is
not a binary expression with operator `<` or `<=`; the initializer and the
post-step play no part. -/
theorem cond_not_less_iff (v : visitor) (init : Stmt) (Cond : Option Expr) (post : Stmt)
    (Body : List Stmt) :
    Visit v (some (Node.Stmt (Stmt.ForStmt (some init) Cond (some post) Body))) =
        some ⟨["cond not < or <="], some v⟩ ↔
      ¬ ∃ X op Y, Cond = some (Expr.BinaryExpr X op Y) ∧
        (op = Token.LSS ∨ op = Token.LEQ) := by
  cases Cond with
  | none => simp [Visit, Visit.forStmt, Println]
  | some cond =>
    cases cond with
    | BinaryExpr X Op Y =>
      by_cases hop : Op = Token.LSS ∨ Op = Token.LEQ
      · have hop2 : ¬ (Op ≠ Token.LSS ∧ Op ≠ Token.LEQ) := by
          rintro ⟨h1, h2⟩
          exact hop.elim h1 h2
        have hrhs : ∃ X2 op Y2, some (Expr.BinaryExpr X Op Y) =
            some (Expr.BinaryExpr X2 op Y2) ∧ (op = Token.LSS ∨ op = Token.LEQ) :=
          ⟨X, Op, Y, rfl, hop⟩
        constructor
        · intro hv
          exfalso
          cases X with
          | Ident Name =>
            obtain ⟨line, hl, hmem⟩ := checkInit_line v init Name Y post
            simp only [Visit, Visit.forStmt, Option.isNone_some, Bool.false_and,
              Bool.false_eq_true, if_false, hop2, hl] at hv
            simp only [Option.some.injEq, VisitResult.mk.injEq, List.cons.injEq,
              and_true] at hv
            subst hv
            rcases hmem with h1 | h2 | ⟨mn, mx, st, h3⟩
            · simp [initLabels] at h1
            · simp [postLabels] at h2
            · exact countingLine_not_label mn mx st _ (by simp [rejectionLabels]) h3.symm
          | _ => simp [Visit, Visit.forStmt, Println, hop2] at hv
        · intro hn
          exact absurd hrhs hn
      · have hop2 : Op ≠ Token.LSS ∧ Op ≠ Token.LEQ :=
          ⟨fun e => hop (Or.inl e), fun e => hop (Or.inr e)⟩
        simp [Visit, Visit.forStmt, Println, hop2]
    | _ => simp [Visit, Visit.forStmt, Println]

/-- C18: on a for-statement with initializer and post-step present the
rejection checks are reported in source order.  A condition rejection
(`cond not < or <=`, then `cond lhs not identifier`) is printed whatever the
initializer and post-step are; with the condition `c < _` or `c <= _`, an
initializer rejection (`init not i := n`, then `init multiple values`, then
`init lhs not identifier`, then `init lhs != cond lhs`) is printed whatever
the post-step is; and with initializer and condition passing on `x`, an
assignment post-step is checked for multiple values, then for a target that
is not an identifier, then for a target name other than `x`, then for the
operator.  So `for i := 0; i < n; j = j + 1` is labelled
`init lhs != post assign lhs`. -/
theorem rejection_order (v : visitor) (Body : List Stmt) :
    (∀ init post Cond,
      (¬ ∃ X op Y, Cond = some (Expr.BinaryExpr X op Y) ∧
        (op = Token.LSS ∨ op = Token.LEQ)) →
      Visit v (some (Node.Stmt (Stmt.ForStmt (some init) Cond (some post) Body))) =
        some ⟨["cond not < or <="], some v⟩) ∧
    (∀ init post X op Y, (op = Token.LSS ∨ op = Token.LEQ) → (∀ n, X ≠ Expr.Ident n) →
      Visit v (some (Node.Stmt (Stmt.ForStmt (some init)
          (some (Expr.BinaryExpr X op Y)) (some post) Body))) =
        some ⟨["cond lhs not identifier"], some v⟩) ∧
    (∀ c op Y post, (op = Token.LSS ∨ op = Token.LEQ) →
      (∀ init, (∀ L t R, init ≠ Stmt.AssignStmt L t R) →
        Visit v (some (Node.Stmt (Stmt.ForStmt (some init)
            (some (Expr.BinaryExpr (Expr.Ident c) op Y)) (some post) Body))) =
          some ⟨["init not i := n"], some v⟩) ∧
      (∀ L t R, (L.length ≠ 1 ∨ R.length ≠ 1) →
        Visit v (some (Node.Stmt (Stmt.ForStmt (some (Stmt.AssignStmt L t R))
            (some (Expr.BinaryExpr (Expr.Ident c) op Y)) (some post) Body))) =
          some ⟨["init multiple values"], some v⟩) ∧
      (∀ a t r, (∀ n, a ≠ Expr.Ident n) →
        Visit v (some (Node.Stmt (Stmt.ForStmt (some (Stmt.AssignStmt [a] t [r]))
            (some (Expr.BinaryExpr (Expr.Ident c) op Y)) (some post) Body))) =
          some ⟨["init lhs not identifier"], some v⟩) ∧
      (∀ a t r, a ≠ c →
        Visit v (some (Node.Stmt (Stmt.ForStmt (some (Stmt.AssignStmt [Expr.Ident a] t [r]))
            (some (Expr.BinaryExpr (Expr.Ident c) op Y)) (some post) Body))) =
          some ⟨["init lhs != cond lhs"], some v⟩)) ∧
    (∀ x tok r op Y, (op = Token.LSS ∨ op = Token.LEQ) →
      (∀ L t R, (L.length ≠ 1 ∨ R.length ≠ 1) →
        Visit v (some (Node.Stmt (Stmt.ForStmt
            (some (Stmt.AssignStmt [Expr.Ident x] tok [r]))
            (some (Expr.BinaryExpr (Expr.Ident x) op Y))
            (some (Stmt.AssignStmt L t R)) Body))) =
          some ⟨["post assign multiple values"], some v⟩) ∧
      (∀ a t r2, (∀ n, a ≠ Expr.Ident n) →
        Visit v (some (Node.Stmt (Stmt.ForStmt
            (some (Stmt.AssignStmt [Expr.Ident x] tok [r]))
            (some (Expr.BinaryExpr (Expr.Ident x) op Y))
            (some (Stmt.AssignStmt [a] t [r2])) Body))) =
          some ⟨["post assign lhs not ident"], some v⟩) ∧
      (∀ y t r2, y ≠ x →
        Visit v (some (Node.Stmt (Stmt.ForStmt
            (some (Stmt.AssignStmt [Expr.Ident x] tok [r]))
            (some (Expr.BinaryExpr (Expr.Ident x) op Y))
            (some (Stmt.AssignStmt [Expr.Ident y] t [r2])) Body))) =
          some ⟨["init lhs != post assign lhs"], some v⟩) ∧
      (∀ t r2, (t ≠ Token.ADD_ASSIGN ∧ t ≠ Token.SUB_ASSIGN) →
        Visit v (some (Node.Stmt (Stmt.ForStmt
            (some (Stmt.AssignStmt [Expr.Ident x] tok [r]))
            (some (Expr.BinaryExpr (Expr.Ident x) op Y))
            (some (Stmt.AssignStmt [Expr.Ident x] t [r2])) Body))) =
          some ⟨["post assign not += or -= (but might be i = i - 1, oh well)"],
            some v⟩)) ∧
    Visit ⟨⟩ exPostPlainAssignOther =
      some ⟨["init lhs != post assign lhs"], some ⟨⟩⟩ := by
  have hop2 : ∀ op, (op = Token.LSS ∨ op = Token.LEQ) →
      ¬ (op ≠ Token.LSS ∧ op ≠ Token.LEQ) := by
    rintro op hop ⟨h1, h2⟩
    exact hop.elim h1 h2
  refine ⟨?_, ?_, ?_, ?_, by decide⟩
  · intro init post Cond hc
    cases Cond with
    | none => simp [Visit, Visit.forStmt, Println]
    | some cond =>
      cases cond with
      | BinaryExpr X op Y =>
        have hop : op ≠ Token.LSS ∧ op ≠ Token.LEQ :=
          ⟨fun e => hc ⟨X, op, Y, rfl, Or.inl e⟩, fun e => hc ⟨X, op, Y, rfl, Or.inr e⟩⟩
        simp [Visit, Visit.forStmt, Println, hop]
      | _ => simp [Visit, Visit.forStmt, Println]
  · intro init post X op Y hop hX
    have h2 := hop2 op hop
    cases X with
    | Ident n => exact absurd rfl (hX n)
    | _ => simp [Visit, Visit.forStmt, Println, h2]
  · intro c op Y post hop
    have h2 := hop2 op hop
    refine ⟨?_, ?_, ?_, ?_⟩
    · intro init hna
      cases init with
      | AssignStmt L t R => exact absurd rfl (hna L t R)
      | _ => simp [Visit, Visit.forStmt, Visit.checkInit, Println, h2]
    · intro L t R hlen
      simp [Visit, Visit.forStmt, Visit.checkInit, Println, h2, hlen]
    · intro a t r ha
      cases a with
      | Ident n => exact absurd rfl (ha n)
      | _ => simp [Visit, Visit.forStmt, Visit.checkInit, Println, h2]
    · intro a t r hac
      simp [Visit, Visit.forStmt, Visit.checkInit, Println, h2, hac]
  · intro x tok r op Y hop
    have h2 := hop2 op hop
    refine ⟨?_, ?_, ?_, ?_⟩
    · intro L t R hlen
      simp [Visit, Visit.forStmt, Visit.checkInit, Visit.checkPost, Println, h2, hlen]
    · intro a t r2 ha
      cases a with
      | Ident n => exact absurd rfl (ha n)
      | _ => simp [Visit, Visit.forStmt, Visit.checkInit, Visit.checkPost, Println, h2]
    · intro y t r2 hyx
      simp [Visit, Visit.forStmt, Visit.checkInit, Visit.checkPost, Println, h2, hyx]
    · intro t r2 ht
      simp [Visit, Visit.forStmt, Visit.checkInit, Visit.checkPost, Println, h2, ht]

/-- C19, as stated, fails: `for i := 0; i < n; i -= 1` passes every rejection
check and is printed as a counting loop, yet its post-step `i -= 1` is none
of `i += ?`, `i++`, `i--`. -/
theorem sub_assign_recognized :
    Visit ⟨⟩ exSubAssign =
      some ⟨[countingLine "0" "non-literal" "literal"], some ⟨⟩⟩ ∧
    ¬ IsThreeForms
      (some (Stmt.AssignStmt [Expr.Ident "i"] Token.DEFINE [Expr.BasicLit Token.INT "0"]))
      (some (Expr.BinaryExpr (Expr.Ident "i") Token.LSS (Expr.Ident "n")))
      (some (Stmt.AssignStmt [Expr.Ident "i"] Token.SUB_ASSIGN
        [Expr.BasicLit Token.INT "1"])) := by
  refine ⟨by decide, ?_⟩
  rintro ⟨i, r, op, Y, -, -, -, ⟨r2, h⟩ | h | h⟩
  · simp at h
  · simp at h
  · simp at h

/-- C19, amended: every node on which `Visit` prints a counting-loop line is a
for-statement whose initializer is an assignment of one value to a single
identifier `x`, whose condition compares `x` with `<` or `<=`, and whose
post-step is `x += ?`, `x -= ?` or an inc/dec statement on that same
identifier. -/
theorem recognized_forms (v : visitor) (node : Option Node) (a b c : String)
    (h : Visit v node = some ⟨[countingLine a b c], some v⟩) :
    ∃ x tok r op Y post Body,
      node = some (Node.Stmt (Stmt.ForStmt
        (some (Stmt.AssignStmt [Expr.Ident x] tok [r]))
        (some (Expr.BinaryExpr (Expr.Ident x) op Y)) (some post) Body)) ∧
      (op = Token.LSS ∨ op = Token.LEQ) ∧
      ((∃ r2, post = Stmt.AssignStmt [Expr.Ident x] Token.ADD_ASSIGN [r2]) ∨
        (∃ r2, post = Stmt.AssignStmt [Expr.Ident x] Token.SUB_ASSIGN [r2]) ∨
        (∃ t, post = Stmt.IncDecStmt (Expr.Ident x) t)) := by
  obtain ⟨Init, Cond, Post, Body, rfl, x, tok, r, op, Y, post, rfl, rfl, hop, rfl, hpost⟩ :=
    recognized_shape v node a b c h
  refine ⟨x, tok, r, op, Y, post, Body, rfl, hop, ?_⟩
  rcases hpost with ⟨t, rfl⟩ | ⟨t, r2, rfl, rfl | rfl⟩
  · exact Or.inr (Or.inr ⟨t, rfl⟩)
  · exact Or.inl ⟨r2, rfl⟩
  · exact Or.inr (Or.inl ⟨r2, rfl⟩)

/-- Witness of C19 (amended) at `for i := n; i < m; i += 2`. -/
theorem recognized_forms_witness :
    Visit ⟨⟩ exStrideTwo =
      some ⟨[countingLine "non-literal" "non-literal" "literal"], some ⟨⟩⟩ ∧
    ∃ x tok r op Y post Body,
      exStrideTwo = some (Node.Stmt (Stmt.ForStmt
        (some (Stmt.AssignStmt [Expr.Ident x] tok [r]))
        (some (Expr.BinaryExpr (Expr.Ident x) op Y)) (some post) Body)) ∧
      (op = Token.LSS ∨ op = Token.LEQ) ∧
      ((∃ r2, post = Stmt.AssignStmt [Expr.Ident x] Token.ADD_ASSIGN [r2]) ∨
        (∃ r2, post = Stmt.AssignStmt [Expr.Ident x] Token.SUB_ASSIGN [r2]) ∨
        (∃ t, post = Stmt.IncDecStmt (Expr.Ident x) t)) :=
  ⟨by decide,
    recognized_forms ⟨⟩ exStrideTwo "non-literal" "non-literal" "literal" (by decide)⟩

/-- C16: `Visit` never fails.  On every node it returns normally with the
visitor, and on every for-statement, whatever the lengths of the target and
value lists of its initializer and post-step and whichever parts are absent,
it prints one rejection label or one counting-loop line.  The reads that can
fail are guarded: the counting-loop path (which reads `initAssign.Rhs[0]`) is
reached only when both lists of the initializer have length 1; the post-step
checks pass on an assignment only when both of its lists have length 1, which
is when `postAssign.Rhs[0]` is read; without those guards the reads do fail;
and in the `switch` of lines 173-185 no field is read through a nil pointer,
so that the pointer-level `Visit.strideSwitch` fails only where the index read
of `Visit.stride` does. -/
theorem visit_never_fails (v : visitor) :
    (∀ node, ∃ out, Visit v node = some ⟨out, some v⟩) ∧
    (∀ Init Cond Post Body, ∃ line,
      Visit v (some (Node.Stmt (Stmt.ForStmt Init Cond Post Body))) =
        some ⟨[line], some v⟩ ∧
      (line ∈ rejectionLabels ∨ ∃ mn mx st, line = countingLine mn mx st)) ∧
    (∀ L t R Cond Post Body a b c,
      Visit v (some (Node.Stmt (Stmt.ForStmt (some (Stmt.AssignStmt L t R)) Cond Post
          Body))) = some ⟨[countingLine a b c], some v⟩ →
      L.length = 1 ∧ R.length = 1) ∧
    (∀ x post L t R, Visit.checkPost x post = some none →
      post = Stmt.AssignStmt L t R → L.length = 1 ∧ R.length = 1) ∧
    (∀ Y post, Visit.report v [] Y post = none) ∧
    (∀ L t, Visit.stride (Stmt.AssignStmt L t []) = none) ∧
    (∀ Post, Visit.strideSwitch Post = Visit.stride Post) := by
  refine ⟨visit_returns v, visit_line v, ?_, checkPost_pass_lengths, ?_, ?_,
    strideSwitch_eq_stride⟩
  · intro L t R Cond Post Body a b c h
    obtain ⟨Init2, Cond2, Post2, Body2, hn, x, tok, r, op, Y, post, hi, _, _, _, _⟩ :=
      recognized_shape v _ a b c h
    simp only [Option.some.injEq, Node.Stmt.injEq, Stmt.ForStmt.injEq] at hn
    obtain ⟨hI, -, -, -⟩ := hn
    rw [← hI] at hi
    simp only [Option.some.injEq, Stmt.AssignStmt.injEq] at hi
    obtain ⟨rfl, -, rfl⟩ := hi
    simp
  · intro Y post
    simp [Visit.report]
  · intro L t
    simp [Visit.stride]

/-- C17: `Visit` returns the visitor itself, never a nil visitor, on every
node: a for- or range-statement with any classification, any other node, and
nil.  Hence the walk `Walk` prunes no subtree: on every syntax tree (a file, a
declaration, a statement or an expression, with loops under any kind of
statement and in function literals) it completes, and the lines it writes
are, in pre-order, one line for each for- or range-statement of the tree
(loops nested in the body of a loop included), each line being what `Visit`
prints on that loop.  For example the walk of the file `exFile` writes six
lines and the walk of
`for i := 0; i < n; i++ { for range ch { }; for { for x != y { } } }`
writes four. -/
theorem walk_classifies_every_loop (v : visitor) :
    (∀ node, ∃ out, Visit v node = some ⟨out, some v⟩) ∧
    (∀ n, ∃ lines, Walk v n = some lines ∧
      List.Forall₂ (Classified v) (loopsOf n) lines ∧
      lines.length = (loopsOf n).length) ∧
    Walk ⟨⟩ exFile =
      some ["counting loop min 0, max non-literal, stride 1", "range", "bare for",
        "cond only", "range",
        "counting loop min literal, max non-literal, stride literal"] ∧
    Walk ⟨⟩ (Node.Stmt exNested) =
      some ["counting loop min 0, max non-literal, stride 1", "range", "bare for",
        "cond only"] := by
  refine ⟨visit_returns v, ?_, by decide, by decide⟩
  intro n
  obtain ⟨lines, hw, hf⟩ := walk_loops v n
  exact ⟨lines, hw, hf, hf.length_eq.symm⟩

end Gofor
